import Mathlib

/-!
Verification of the MCP client's response-decoding pipeline
(`src/mcp_client/client.py`) against its natural-language specification.

The development shallowly embeds the functions of the client that the
claims are about:

* `extract_jsonrpc` (client.py lines 41-110) with its two `re.search`
  patterns, the quote / literal-token normalisation, `json.loads` and the
  `ast.literal_eval` fallback;
* `ToolCallResult.get_text_value` (lines 137-148);
* `parse_tool_response` (lines 681-774);
* the response-handling tail of `Client.call_tool` (lines 550-632);
* the state update of `Client.list_tools` (lines 466-508);
* `Client._get_next_request_id` (lines 378-381).

Python strings are modelled as `List Char`; Python data values that flow
through the decoder are modelled by `JsonValue` (JSON-compatible data,
with Python `None` as `.null`) and `Value` (an arbitrary wire value:
string, exception object, structured response object, `None`, or other).
Stdlib calls that can raise (`json.loads`, `ast.literal_eval`) are
modelled as `Option`-returning parsers; the `try/except` handlers of the
source are embedded as the corresponding fallback branches.
-/

namespace McpClient

/-- Python strings are modelled as lists of characters. -/
abbrev Chars := List Char

/-- Shorthand turning a Lean string literal into its character list. -/
def chars (s : String) : Chars := s.toList

/-- Python (`re` module) whitespace characters, as matched by `\s`
(ASCII range; the inputs in scope contain no exotic unicode spaces). -/
def isPySpace (c : Char) : Bool :=
  c = ' ' || c = '\t' || c = '\n' || c = '\r' || c = '\x0b' || c = '\x0c'

/-- JSON whitespace as skipped by `json.loads`. -/
def isJsonWs (c : Char) : Bool :=
  c = ' ' || c = '\t' || c = '\n' || c = '\r'

/-- JSON-compatible data values, doubling as the model of the Python data
objects (`dict` / `list` / `str` / `int` / `bool` / `None`) that the
decoder produces.  Python `None` is `.null`.  Objects keep their members
in insertion order; duplicate keys are resolved by `pyLookup`, which, like
a Python `dict` built by repeated insertion, lets the last occurrence
win. -/
inductive JsonValue where
  | null
  | bool (b : Bool)
  | num (n : Int)
  | str (s : Chars)
  | arr (elems : List JsonValue)
  | obj (members : List (Chars × JsonValue))

/-- Python truthiness (`bool(x)`) for the data values in scope. -/
def JsonValue.truthy : JsonValue → Bool
  | .null => false
  | .bool b => b
  | .num n => n != 0
  | .str s => !s.isEmpty
  | .arr l => !l.isEmpty
  | .obj m => !m.isEmpty

/-- Lookup in an association list with Python-`dict` semantics: the last
binding of a key is the one in force. -/
def pyLookup (ms : List (Chars × JsonValue)) (k : Chars) : Option JsonValue :=
  ms.foldl (fun acc kv => if kv.1 = k then some kv.2 else acc) none

/-- Python `k in d` for a `dict`; `false` on every non-`dict` value (the
decoder only reaches this test on `dict` results). -/
def JsonValue.hasKey : JsonValue → Chars → Bool
  | .obj ms, k => (pyLookup ms k).isSome
  | _, _ => false

/-- Python `d.get(k, default)`. -/
def JsonValue.getD : JsonValue → Chars → JsonValue → JsonValue
  | .obj ms, k, d => (pyLookup ms k).getD d
  | _, _, d => d

/-- Whether `pat` occurs as a contiguous substring. -/
def containsTok (pat : Chars) : Chars → Bool
  | [] => pat.isEmpty
  | c :: rest => pat.isPrefixOf (c :: rest) || containsTok pat rest

/-! ### The two `re.search` patterns of `extract_jsonrpc`

`re.search(r'result=(\{.*?\})', s, re.DOTALL)` (line 64) and
`re.search(r'result=(\{.*?\})(?:,\s*error=|\)$)', s, re.DOTALL)` (line 71).

Both patterns begin with the literal `result={`.  Python's leftmost-match
rule together with the non-greedy `.*?` gives the following equivalent
procedure, which the definitions below implement directly: anchor at the
first occurrence of `result={` in the string, then capture from that `{`
up to the first following `}` that satisfies the pattern's continuation
(none for the first pattern; `,\s*error=` or `)` at end-of-input for the
second).  Anchoring at the first occurrence is faithful: if any later
occurrence of `result={` admits a satisfying closing brace, that same
closing brace (which lies even further right) also satisfies the
continuation for the first occurrence, so Python's engine already
succeeds there. -/

/-- The literal `result={` that both patterns must match first. -/
def resultMarker : Chars := chars "result=\x7b"

/-- The literal `error=` of the second pattern's continuation. -/
def errMarker : Chars := chars "error="

/-- The literal `root=` checked by `input_str.startswith('root=')`. -/
def rootMarker : Chars := chars "root="

/-- Suffix of the input starting at the `{` of the first occurrence of
`result={`, if any. -/
def findResultStart : Chars → Option Chars
  | [] => none
  | c :: rest =>
    if resultMarker.isPrefixOf (c :: rest) then some (List.drop 7 (c :: rest))
    else findResultStart rest

/-- Capture up to and including the first `}` (continuation-free
non-greedy close of pattern 1). -/
def takeUpToClose : Chars → Option Chars
  | [] => none
  | c :: rest =>
    if c = '\x7d' then some [c] else (takeUpToClose rest).map (c :: ·)

/-- Continuation `,\s*error=` of pattern 2. -/
def followsErrorTag : Chars → Bool
  | ',' :: rest => errMarker.isPrefixOf (rest.dropWhile isPySpace)
  | _ => false

/-- Continuation `\)$` of pattern 2 (`$` without `re.MULTILINE`: end of
input, or just before one final newline). -/
def followsFinalParen : Chars → Bool
  | ')' :: rest => rest.isEmpty || rest = ['\n']
  | _ => false

/-- Capture up to and including the first `}` whose continuation
satisfies pattern 2. -/
def scanClose2 : Chars → Option Chars
  | [] => none
  | c :: rest =>
    if c = '\x7d' && (followsErrorTag rest || followsFinalParen rest) then some [c]
    else (scanClose2 rest).map (c :: ·)

/-- Group 1 of `re.search(r'result=(\{.*?\})', s, re.DOTALL)`. -/
def reResultShort (s : Chars) : Option Chars :=
  match findResultStart s with
  | none => none
  | some [] => none
  | some (c :: rest) => (takeUpToClose rest).map (c :: ·)

/-- Group 1 of `re.search(r'result=(\{.*?\})(?:,\s*error=|\)$)', s, re.DOTALL)`. -/
def reResultFull (s : Chars) : Option Chars :=
  match findResultStart s with
  | none => none
  | some [] => none
  | some (c :: rest) => (scanClose2 rest).map (c :: ·)

/-! ### The `'text':\s*'([^']+)'` fallback pattern

Used at client.py lines 572, 722, 754 and 770.  The greedy `\s*` before a
quote is equivalent to skipping the maximal whitespace run (backtracking
cannot help, because a shorter run leaves a whitespace character where
the quote is required), and the greedy `[^']+` followed by `'` captures
the maximal run of non-quote characters, which must be non-empty and must
be terminated by a quote. -/

/-- The literal `'text':` opening the fallback pattern. -/
def textMarker : Chars := chars "'text':"

/-- Try the fallback pattern anchored at the start of `s`; on success
return the captured group. -/
def textAt (s : Chars) : Option Chars :=
  if textMarker.isPrefixOf s then
    match (List.drop 7 s).dropWhile isPySpace with
    | '\'' :: rest =>
      let run := rest.takeWhile (fun c => c ≠ '\'')
      if run.isEmpty then none
      else if (rest.dropWhile (fun c => c ≠ '\'')).isEmpty then none
      else some run
    | _ => none
  else none

/-- `re.search` for the fallback pattern: leftmost position at which
`textAt` succeeds. -/
def textSearch : Chars → Option Chars
  | [] => none
  | c :: rest =>
    match textAt (c :: rest) with
    | some t => some t
    | none => textSearch rest

/-! ### Python `str.replace` -/

/-- Fuel-driven left-to-right non-overlapping replacement; one unit of
fuel is spent per consumed source position, so `s.length` fuel always
suffices. -/
def pyReplaceF : Nat → Chars → Chars → Chars → Chars
  | 0, s, _, _ => s
  | _ + 1, [], _, _ => []
  | f + 1, c :: rest, pat, rep =>
    if pat.isPrefixOf (c :: rest) then
      rep ++ pyReplaceF f (List.drop pat.length (c :: rest)) pat rep
    else c :: pyReplaceF f rest pat rep

/-- Python `s.replace(pat, rep)` for a non-empty pattern (every pattern
used by `extract_jsonrpc` is non-empty; the empty-pattern case of Python
is not needed and left as the identity). -/
def pyReplace (s pat rep : Chars) : Chars :=
  if pat.isEmpty then s else pyReplaceF s.length s pat rep

/-! ### `json.loads`

A recursive-descent parser for strict JSON, modelling the behaviour of
`json.loads` on the inputs in scope.  Failure (`none`) models
`json.JSONDecodeError`.  Restrictions of the model, none of which is
reachable from the replies this client handles: numbers are integer
literals only (a fraction or exponent fails the parse), leading zeroes
are accepted, and `\uXXXX` escapes are decoded without surrogate-pair
combination.  Fuel is spent once per recursive descent step; the top
level supplies `length + 1`, which is ample because every descent step
first consumes at least one character. -/

/-- Whether a character is a hexadecimal digit. -/
def isHexDig (c : Char) : Bool :=
  c.isDigit || ('a' ≤ c && c ≤ 'f') || ('A' ≤ c && c ≤ 'F')

/-- Value of a hexadecimal digit (guarded by `isHexDig`). -/
def hexVal (c : Char) : Nat :=
  if c ≤ '9' then c.toNat - 48 else if c ≤ 'F' then c.toNat - 55 else c.toNat - 87

/-- Single-character JSON string escapes. -/
def jsonEscChar (e : Char) : Option Char :=
  if e = '"' then some '"'
  else if e = '\\' then some '\\'
  else if e = '/' then some '/'
  else if e = 'b' then some '\x08'
  else if e = 'f' then some '\x0c'
  else if e = 'n' then some '\n'
  else if e = 'r' then some '\r'
  else if e = 't' then some '\t'
  else none

/-- Body of a JSON string after the opening quote: returns the decoded
content and the input after the closing quote.  Raw control characters
are rejected, as by `json.loads` in strict mode. -/
def parseStringBody : Chars → Option (Chars × Chars)
  | [] => none
  | c :: rest =>
    if c = '"' then some ([], rest)
    else if c = '\\' then
      match rest with
      | [] => none
      | e :: rest' =>
        if e = 'u' then
          match rest' with
          | a :: b :: c2 :: d :: rest'' =>
            if isHexDig a && isHexDig b && isHexDig c2 && isHexDig d then
              (parseStringBody rest'').map fun p =>
                (Char.ofNat (hexVal a * 4096 + hexVal b * 256 + hexVal c2 * 16 + hexVal d) :: p.1, p.2)
            else none
          | _ => none
        else
          match jsonEscChar e with
          | some ch => (parseStringBody rest').map fun p => (ch :: p.1, p.2)
          | none => none
    else if c.toNat < 32 then none
    else (parseStringBody rest).map fun p => (c :: p.1, p.2)

/-- Decimal value of a digit run. -/
def digitsVal (ds : Chars) : Nat := ds.foldl (fun a c => 10 * a + (c.toNat - 48)) 0

/-- Integer literal with optional leading minus. -/
def parseIntTok (s : Chars) : Option (Int × Chars) :=
  match s with
  | '-' :: rest =>
    let ds := rest.takeWhile Char.isDigit
    if ds.isEmpty then none else some (-(digitsVal ds : Int), rest.drop ds.length)
  | _ =>
    let ds := s.takeWhile Char.isDigit
    if ds.isEmpty then none else some ((digitsVal ds : Int), s.drop ds.length)

/-- A fraction or exponent would follow: the integer-only number model
refuses the input (see the module comment on `json.loads`). -/
def floatFollows : Chars → Bool
  | c :: _ => c = '.' || c = 'e' || c = 'E'
  | [] => false

mutual

/-- One JSON value, leading whitespace allowed. -/
def parseVal : Nat → Chars → Option (JsonValue × Chars)
  | 0, _ => none
  | f + 1, s =>
    match s.dropWhile isJsonWs with
    | [] => none
    | c :: rest =>
      if c = '\x7b' then
        match rest.dropWhile isJsonWs with
        | '\x7d' :: r => some (.obj [], r)
        | _ => (parseMembers f rest).map fun p => (.obj p.1, p.2)
      else if c = '[' then
        match rest.dropWhile isJsonWs with
        | ']' :: r => some (.arr [], r)
        | _ => (parseItems f rest).map fun p => (.arr p.1, p.2)
      else if c = '"' then
        (parseStringBody rest).map fun p => (.str p.1, p.2)
      else if (chars "true").isPrefixOf (c :: rest) then some (.bool true, List.drop 4 (c :: rest))
      else if (chars "false").isPrefixOf (c :: rest) then some (.bool false, List.drop 5 (c :: rest))
      else if (chars "null").isPrefixOf (c :: rest) then some (.null, List.drop 4 (c :: rest))
      else
        match parseIntTok (c :: rest) with
        | some (n, r) => if floatFollows r then none else some (.num n, r)
        | none => none

/-- Members of a JSON object after `{` (at least one member present). -/
def parseMembers : Nat → Chars → Option (List (Chars × JsonValue) × Chars)
  | 0, _ => none
  | f + 1, s =>
    match s.dropWhile isJsonWs with
    | '"' :: rest =>
      match parseStringBody rest with
      | none => none
      | some (k, r1) =>
        match r1.dropWhile isJsonWs with
        | ':' :: r2 =>
          match parseVal f r2 with
          | none => none
          | some (v, r3) =>
            match r3.dropWhile isJsonWs with
            | ',' :: r4 => (parseMembers f r4).map fun p => ((k, v) :: p.1, p.2)
            | '\x7d' :: r4 => some ([(k, v)], r4)
            | _ => none
        | _ => none
    | _ => none

/-- Items of a JSON array after `[` (at least one item present). -/
def parseItems : Nat → Chars → Option (List JsonValue × Chars)
  | 0, _ => none
  | f + 1, s =>
    match parseVal f s with
    | none => none
    | some (v, r1) =>
      match r1.dropWhile isJsonWs with
      | ',' :: r2 => (parseItems f r2).map fun p => (v :: p.1, p.2)
      | ']' :: r2 => some ([v], r2)
      | _ => none

end

/-- `json.loads`: parse one value and require only whitespace after it. -/
def jsonLoads (s : Chars) : Option JsonValue :=
  match parseVal (s.length + 1) s with
  | some (v, rest) => if (rest.dropWhile isJsonWs).isEmpty then some v else none
  | none => none

/-! ### `ast.literal_eval`

The fallback parser of `extract_jsonrpc` (client.py lines 96-110) for
Python-literal dumps.  The model covers the literals such dumps consist
of — `dict` / `list` displays, single- or double-quoted strings with the
common backslash escapes, `None` / `True` / `False`, and integers — and
fails (`none`, modelling the caught exception) on anything else.  Only
string-keyed dicts are modelled; a non-string key, a set or tuple
display, or an unknown escape fails the parse. -/

/-- Python string escapes recognised by the model. -/
def pyEscChar (e : Char) : Option Char :=
  if e = '\\' then some '\\'
  else if e = '\'' then some '\''
  else if e = '"' then some '"'
  else if e = 'n' then some '\n'
  else if e = 't' then some '\t'
  else if e = 'r' then some '\r'
  else none

/-- Body of a Python string literal quoted by `q`; a raw newline is a
syntax error, as in Python. -/
def parsePyStringBody (q : Char) : Chars → Option (Chars × Chars)
  | [] => none
  | c :: rest =>
    if c = q then some ([], rest)
    else if c = '\\' then
      match rest with
      | [] => none
      | e :: rest' =>
        match pyEscChar e with
        | some ch => (parsePyStringBody q rest').map fun p => (ch :: p.1, p.2)
        | none => none
    else if c = '\n' then none
    else (parsePyStringBody q rest).map fun p => (c :: p.1, p.2)

mutual

/-- One Python literal, leading whitespace allowed. -/
def parsePyVal : Nat → Chars → Option (JsonValue × Chars)
  | 0, _ => none
  | f + 1, s =>
    match s.dropWhile isPySpace with
    | [] => none
    | c :: rest =>
      if c = '\x7b' then
        match rest.dropWhile isPySpace with
        | '\x7d' :: r => some (.obj [], r)
        | _ => (parsePyMembers f rest).map fun p => (.obj p.1, p.2)
      else if c = '[' then
        match rest.dropWhile isPySpace with
        | ']' :: r => some (.arr [], r)
        | _ => (parsePyItems f rest).map fun p => (.arr p.1, p.2)
      else if c = '\'' then
        (parsePyStringBody '\'' rest).map fun p => (.str p.1, p.2)
      else if c = '"' then
        (parsePyStringBody '"' rest).map fun p => (.str p.1, p.2)
      else if (chars "None").isPrefixOf (c :: rest) then some (.null, List.drop 4 (c :: rest))
      else if (chars "True").isPrefixOf (c :: rest) then some (.bool true, List.drop 4 (c :: rest))
      else if (chars "False").isPrefixOf (c :: rest) then some (.bool false, List.drop 5 (c :: rest))
      else
        match parseIntTok (c :: rest) with
        | some (n, r) => if floatFollows r then none else some (.num n, r)
        | none => none

/-- Members of a Python dict display after `{`. -/
def parsePyMembers : Nat → Chars → Option (List (Chars × JsonValue) × Chars)
  | 0, _ => none
  | f + 1, s =>
    match parsePyVal f s with
    | some (.str k, r1) =>
      match r1.dropWhile isPySpace with
      | ':' :: r2 =>
        match parsePyVal f r2 with
        | none => none
        | some (v, r3) =>
          match r3.dropWhile isPySpace with
          | ',' :: r4 => (parsePyMembers f r4).map fun p => ((k, v) :: p.1, p.2)
          | '\x7d' :: r4 => some ([(k, v)], r4)
          | _ => none
      | _ => none
    | _ => none

/-- Items of a Python list display after `[`. -/
def parsePyItems : Nat → Chars → Option (List JsonValue × Chars)
  | 0, _ => none
  | f + 1, s =>
    match parsePyVal f s with
    | none => none
    | some (v, r1) =>
      match r1.dropWhile isPySpace with
      | ',' :: r2 => (parsePyItems f r2).map fun p => (v :: p.1, p.2)
      | ']' :: r2 => some ([v], r2)
      | _ => none

end

/-- `ast.literal_eval`: parse one literal and require only whitespace
after it. -/
def astLiteralEval (s : Chars) : Option JsonValue :=
  match parsePyVal (s.length + 1) s with
  | some (v, rest) => if (rest.dropWhile isPySpace).isEmpty then some v else none
  | none => none

/-! ### The wire-value model

`Value` models the Python values a stream `receive()` can deliver and
that the decoding functions inspect:

* `.str` — a string (including the `root=`-prefixed debug dumps);
* `.exc` — an exception object (carrying its message);
* `.resp` — a structured response object exposing a `result` attribute
  (the pydantic message whose `result` is either a `ToolCallResult`-like
  object with `content` / `isError` / `message` attributes, a plain
  `dict`, or `None`);
* `.pyNone` — Python `None`;
* `.other` — any other object, carrying the string `str()` renders it to;
  it has no `result` attribute and is not an exception.
-/

/-- One content item of a tool reply: either a pydantic `TextContent`
object (attributes `type` and `text`, client.py lines 114-122) or a
plain `dict`. -/
inductive ContentItem where
  | textContent (ty : Chars) (tx : Chars)
  | dictItem (kvs : List (Chars × JsonValue))

/-- The `result` carried by a structured response object. -/
inductive PyResultObj where
  | toolResult (content : List ContentItem) (isError : Bool) (message : Option Chars)
  | dict (kvs : List (Chars × JsonValue))

/-- A wire value delivered by `receive()`. -/
inductive Value where
  | str (s : Chars)
  | exc (msg : Chars)
  | resp (id : Chars) (result : Option PyResultObj) (err : JsonValue)
  | pyNone
  | other (s : Chars)

/-- Python `isinstance(v, Exception)`. -/
def Value.isExc : Value → Bool
  | .exc _ => true
  | _ => false

/-- Python `isinstance(v, str)`. -/
def Value.isStr : Value → Bool
  | .str _ => true
  | _ => false

/-- Python truthiness of a wire value (`not input_str` at client.py
line 57): objects and exceptions are truthy, `None` is falsy, a string
is truthy when non-empty. -/
def Value.pyTruthy : Value → Bool
  | .str s => !s.isEmpty
  | .pyNone => false
  | _ => true

/-! ### `extract_jsonrpc` (client.py lines 41-110)

The function returns Python `None` (here `.null`) when the input is not
a `root=`-prefixed string, when neither `re.search` pattern matches, and
when both `json.loads` and the `ast.literal_eval` fallback fail.  When a
`field_name` is supplied and is a key of the parsed result dict, the
field's value is returned; otherwise the whole result object is
returned (also when the field is absent — the source only narrows to
the field on `field_name in result_json`).  Both captured groups start
with `{`, so a successful parse always yields a dict and the
`result_json.get` call cannot raise. -/

/-- Model of `extract_jsonrpc(input_str, field_name)`.  Python `None`
results are `.null`. -/
def extract_jsonrpc (input : Value) (field : Option Chars) : JsonValue :=
  match input with
  | .str s =>
    -- line 57: `not input_str or not isinstance(input_str, str) or not startswith('root=')`
    if s.isEmpty then .null
    else if !(rootMarker.isPrefixOf s) then .null
    else
      match reResultShort s with
      | none => .null  -- line 66: no `result=` field found
      | some shortGroup =>
        let result_str := (reResultFull s).getD shortGroup
        -- lines 78-81: normalise quoting and literal tokens
        let jc0 := pyReplace result_str (chars "'") (chars "\"")
        let jc1 := pyReplace jc0 (chars "None") (chars "null")
        let jc2 := pyReplace jc1 (chars "True") (chars "true")
        let jc3 := pyReplace jc2 (chars "False") (chars "false")
        match jsonLoads jc3 with
        | some rj =>
          match field with
          | some f => if rj.hasKey f then rj.getD f .null else rj
          | none => rj
        | none =>
          -- lines 92-110: JSONDecodeError; fall back to ast.literal_eval
          match astLiteralEval result_str with
          | some rd =>
            match field with
            | some f => if rd.hasKey f then rd.getD f .null else rd
            | none => rd
          | none => .null
  | _ => .null  -- non-string input fails the isinstance check at line 57

/-! ### `ToolCallResult` (client.py lines 125-148) -/

/-- Pydantic model `ToolCallResult`. -/
structure ToolCallResult where
  content : List ContentItem
  isError : Bool := false
  message : Option Chars := none

/-- `ToolCallResult.get_text_value` (client.py lines 137-148): the text
of the first content item if it is a `TextContent`, else the `'text'`
entry of the first item if it is a dict containing one, else `None`. -/
def get_text_value (r : ToolCallResult) : JsonValue :=
  match r.content with
  | [] => .null
  | first :: _ =>
    match first with
    | .textContent _ tx => .str tx
    | .dictItem kvs =>
      match pyLookup kvs (chars "text") with
      | some v => v
      | none => .null

/-! ### `parse_tool_response` (client.py lines 681-774)

The source returns a `(value, is_error, error_message)` triple and wraps
its whole body in `try/except`, with the `except` handler re-running the
same text regex (lines 768-772) before giving up; in the model every
stdlib call that can raise is already `Option`-valued inside
`extract_jsonrpc`, and the remaining operations of the body are guarded
in the source (`len(...) > 0` before indexing, `'text' in item` before
subscripting), so the handler's behaviour coincides with the in-line
fallthrough and the function is total. -/

/-- The returned triple `(value, is_error, error_message)`, with Python
`None` as `.null`. -/
abbrev ParseTriple := JsonValue × Bool × JsonValue

/-- Stage of lines 702-726: a `root=`-prefixed string is put through
`extract_jsonrpc`; a truthy result is checked for `isError` and for a
leading text content item; otherwise the text regex is tried on the
whole response string. -/
def stageRoot : Value → Option ParseTriple
  | .str s =>
    if rootMarker.isPrefixOf s then
      let result := extract_jsonrpc (.str s) none
      let viaStruct : Option ParseTriple :=
        if result.truthy then
          if (result.getD (chars "isError") (.bool false)).truthy then
            some (.null, true, result.getD (chars "message") (.str (chars "Unknown error")))
          else if result.hasKey (chars "content") then
            match result.getD (chars "content") .null with
            | .arr (first :: _) =>
              match first with
              | .obj kvs =>
                match pyLookup kvs (chars "text") with
                | some v => some (v, false, .null)
                | none => none
              | _ => none
            | _ => none
          else none
        else none
      match viaStruct with
      | some t => some t
      | none => (textSearch s).map fun t => (.str t, false, .null)
    else none
  | _ => none

/-- Stage of lines 729-749: a response object exposing a `result`
attribute.  A `result` with a truthy `content` attribute yields the
first item's text (attribute or dict entry); a `dict` result with a
non-empty `content` list yields the first item's `'text'` entry. -/
def stageAttr : Value → Option ParseTriple
  | .resp _ (some (.toolResult content _ _)) _ =>
    match content with
    | [] => none  -- `getattr(result, 'content')` is falsy
    | first :: _ =>
      match first with
      | .textContent _ tx => some (.str tx, false, .null)
      | .dictItem kvs =>
        match pyLookup kvs (chars "text") with
        | some v => some (v, false, .null)
        | none => none
  | .resp _ (some (.dict kvs)) _ =>
    if (pyLookup kvs (chars "content")).isSome then
      match (pyLookup kvs (chars "content")).getD .null with
      | .arr (first :: _) =>
        match first with
        | .obj ikvs =>
          match pyLookup ikvs (chars "text") with
          | some v => some (v, false, .null)
          | none => none
        | _ => none
      | _ => none
    else none
  | _ => none

/-- Stage of lines 752-756: the last-resort text regex on a string. -/
def stageStr : Value → Option ParseTriple
  | .str s => (textSearch s).map fun t => (.str t, false, .null)
  | _ => none

/-- Model of `parse_tool_response(response)`. -/
def parse_tool_response (response : Value) : ParseTriple :=
  match stageRoot response with
  | some t => t
  | none =>
    match stageAttr response with
    | some t => t
    | none =>
      match stageStr response with
      | some t => t
      | none => (.null, false, .null)  -- line 760: give up

/-! ### `str()` rendering of wire values

`Client.call_tool` and `Client.list_tools` convert the received value
with `str(response)` before re-inspecting it.  For the pydantic message
objects this produces the `root=JSONRPCResponse(...)` debug dump; the
renderer below models that format.  No theorem depends on the exact
characters produced for object values — only on strings rendering to
themselves. -/

mutual

/-- Python `repr` of a data value (single-quoted strings, `None` /
`True` / `False` literal tokens). -/
def pyRepr : JsonValue → Chars
  | .null => chars "None"
  | .bool true => chars "True"
  | .bool false => chars "False"
  | .num n => chars (toString n)
  | .str s => '\'' :: (s ++ ['\''])
  | .arr l => '[' :: (pyReprItems l ++ [']'])
  | .obj m => '\x7b' :: (pyReprMembers m ++ ['\x7d'])

/-- Comma-separated `repr`s of list items. -/
def pyReprItems : List JsonValue → Chars
  | [] => []
  | [v] => pyRepr v
  | v :: vs => pyRepr v ++ chars ", " ++ pyReprItems vs

/-- Comma-separated `repr`s of dict members. -/
def pyReprMembers : List (Chars × JsonValue) → Chars
  | [] => []
  | [(k, v)] => '\'' :: (k ++ chars "': " ++ pyRepr v)
  | (k, v) :: ms => '\'' :: (k ++ chars "': " ++ pyRepr v ++ chars ", " ++ pyReprMembers ms)

end

/-- Debug dump of one content item of a structured result. -/
def contentItemRepr : ContentItem → Chars
  | .textContent ty tx =>
    chars "TextContent(type='" ++ ty ++ chars "', text='" ++ tx ++ chars "')"
  | .dictItem kvs => pyRepr (.obj kvs)

/-- Comma-separated dumps of a content list. -/
def contentListRepr : List ContentItem → Chars
  | [] => []
  | [item] => contentItemRepr item
  | item :: items => contentItemRepr item ++ chars ", " ++ contentListRepr items

/-- Debug dump of the `result` attribute. -/
def pyResultRepr : Option PyResultObj → Chars
  | none => chars "None"
  | some (.dict kvs) => pyRepr (.obj kvs)
  | some (.toolResult content isErr _) =>
    chars "CallToolResult(content=[" ++ contentListRepr content ++
      chars "], isError=" ++ (if isErr then chars "True" else chars "False") ++ chars ")"

/-- Python `str(response)` for a wire value. -/
def pyStr : Value → Chars
  | .str s => s
  | .exc m => m
  | .pyNone => chars "None"
  | .other s => s
  | .resp id result err =>
    chars "root=JSONRPCResponse(id='" ++ id ++ chars "', result=" ++
      pyResultRepr result ++ chars ", error=" ++ pyRepr err ++ chars ")"

/-! ### The response-handling tail of `Client.call_tool` (lines 550-632)

After `receive()`, the source first re-raises a received exception
(lines 553-555), then tries the `root=`-string extraction (560-576),
then a `try` block (579-630) that re-renders non-string responses
(587-596), reads a `result.content` attribute (599-614), parses a plain
JSON string (616-624), and finally returns the response unchanged
(627); the `except` handler (628-630) also returns the response
unchanged.  Raising operations inside the `try` block are modelled with
`Except Unit`. -/

/-- What `call_tool` hands back to its caller: an extracted value, the
raw content list (line 614), or the undecoded response (lines 627/630). -/
inductive CallOut where
  | val (v : JsonValue)
  | items (l : List ContentItem)
  | raw (v : Value)

/-- Python `x == 'text'`. -/
def eqTextTag : JsonValue → Bool
  | .str s => s = chars "text"
  | _ => false

/-- Membership of a string in a JSON list (Python `'k' in list`). -/
def jsonListHasStr (l : List JsonValue) (k : Chars) : Bool :=
  l.any fun v => eqStrVal v k
where
  /-- Python `==` between a list element and a string. -/
  eqStrVal : JsonValue → Chars → Bool
    | .str s, k' => s = k'
    | _, _ => false

/-- Lines 560-576: extraction for a `root=`-prefixed string response,
with the in-branch text-regex fallback. -/
def stageA : Value → Option CallOut
  | .str s =>
    if rootMarker.isPrefixOf s then
      let result := extract_jsonrpc (.str s) none
      let fromStruct : Option CallOut :=
        if result.truthy && result.hasKey (chars "content") then
          match result.getD (chars "content") .null with
          | .arr (first :: _) =>
            match first with
            | .obj kvs => (pyLookup kvs (chars "text")).map .val
            | _ => none
          | _ => none
        else none
      match fromStruct with
      | some o => some o
      | none => (textSearch s).map fun t => .val (.str t)
    else none
  | _ => none

/-- Loop of lines 593-596: first dict item with `type == 'text'` and a
`'text'` key; non-dict items are skipped by the `isinstance` guard. -/
def stageBLoop : List JsonValue → Option JsonValue
  | [] => none
  | .obj kvs :: rest =>
    if eqTextTag ((pyLookup kvs (chars "type")).getD .null)
        && (pyLookup kvs (chars "text")).isSome then
      pyLookup kvs (chars "text")
    else stageBLoop rest
  | _ :: rest => stageBLoop rest

/-- Loop of lines 604-608 over attribute-style content items: the first
`TextContent` whose `type` is `'text'`. -/
def stageCLoop : List ContentItem → Option Chars
  | [] => none
  | .textContent ty tx :: rest => if ty = chars "text" then some tx else stageCLoop rest
  | .dictItem _ :: rest => stageCLoop rest

/-- Loop of lines 620-622: `content_item.get` raises `AttributeError`
on a non-dict item (caught by the handler at line 628). -/
def stageDLoop : List JsonValue → Except Unit (Option JsonValue)
  | [] => .ok none
  | .obj kvs :: rest =>
    if eqTextTag ((pyLookup kvs (chars "type")).getD .null)
        && (pyLookup kvs (chars "text")).isSome then
      .ok (pyLookup kvs (chars "text"))
    else stageDLoop rest
  | _ :: _ => .error ()

/-- Lines 616-624: parse a plain string response as JSON and walk
`json_data['result']['content']`.  The membership tests `'result' in
json_data` and `'content' in json_data['result']` follow Python
semantics on each value shape; subscripting a list or string by a
string key, and iterating a non-iterable, raise (caught at line 628). -/
def stageD : Chars → Except Unit (Option JsonValue)
  | s =>
    match jsonLoads s with
    | none => .ok none  -- json.JSONDecodeError: `pass` at line 623
    | some jd =>
      match jd with
      | .obj kvs =>
        if (pyLookup kvs (chars "result")).isSome then
          match (pyLookup kvs (chars "result")).getD .null with
          | .obj rkvs =>
            if (pyLookup rkvs (chars "content")).isSome then
              match (pyLookup rkvs (chars "content")).getD .null with
              | .arr items => stageDLoop items
              | .str cs => if cs.isEmpty then .ok none else .error ()
              | .obj ms => if ms.isEmpty then .ok none else .error ()
              | _ => .error ()  -- `for` over a non-iterable: TypeError
            else .ok none
          | .arr l =>
            if jsonListHasStr l (chars "content") then .error () else .ok none
          | .str cs =>
            if containsTok (chars "content") cs then .error () else .ok none
          | _ => .error ()  -- `'content' in non-container`: TypeError
        else .ok none
      | .arr l =>
        if jsonListHasStr l (chars "result") then .error () else .ok none
      | .str cs =>
        if containsTok (chars "result") cs then .error () else .ok none
      | _ => .error ()  -- `'result' in non-container`: TypeError

/-- The `try` block of lines 579-630, up to but excluding the final
`return response`. -/
def tryBody (response : Value) : Except Unit (Option CallOut) :=
  let s := pyStr response
  -- lines 587-596: re-rendered non-string response
  let stageB : Except Unit (Option CallOut) :=
    if (chars "root=JSONRPCResponse").isPrefixOf s && !response.isStr then
      let result := extract_jsonrpc (.str s) none
      if result.truthy && result.hasKey (chars "content") then
        match result.getD (chars "content") .null with
        | .arr l => .ok ((stageBLoop l).map .val)
        | .str _ => .ok none  -- iterating a string yields non-dict items
        | .obj _ => .ok none  -- iterating a dict yields its string keys
        | _ => .error ()      -- `for` over a non-iterable: TypeError
      else .ok none
    else .ok none
  match stageB with
  | .error () => .error ()
  | .ok (some o) => .ok (some o)
  | .ok none =>
    match response with
    | .resp _ (some (.toolResult content _ _)) _ =>
      -- lines 599-614: result.content attribute
      match stageCLoop content with
      | some tx => .ok (some (.val (.str tx)))
      | none => .ok (some (.items content))  -- line 614
    | .str s' =>
      match stageD s' with
      | .error () => .error ()
      | .ok (some v) => .ok (some (.val v))
      | .ok none => .ok none
    | _ => .ok none

/-- Model of the response handling of `Client.call_tool` from the value
returned by `receive()` (line 550) to the function's return:
`Except.error` is the re-raise of a received exception object. -/
def call_tool_handle (response : Value) : Except Chars CallOut :=
  match response with
  | .exc e => .error e  -- lines 553-555: raise before any decoding
  | _ =>
    match stageA response with
    | some o => .ok o
    | none =>
      match tryBody response with
      | .ok (some o) => .ok o
      | .ok none => .ok (.raw response)   -- line 627
      | .error () => .ok (.raw response)  -- lines 628-630

/-! ### The `available_tools` update of `Client.list_tools` (466-508)

From the value returned by `receive()`: a received exception object
returns early (lines 448-450) leaving the state untouched; otherwise
line 473 resets `available_tools` to `[]`, and a `root=`-prefixed
rendering is put through `extract_jsonrpc(response_str, "tools")`, whose
truthy result is assigned wholesale (lines 475-479).  The
logging-only work of lines 420-438 and 452-463 and the display loop of
lines 487-498 have no effect on the state and are not modelled. -/

/-- New value of `available_tools` after processing a received reply. -/
def list_tools_update (response : Value) (prior : JsonValue) : JsonValue :=
  match response with
  | .exc _ => prior  -- lines 448-450: early return before the reset
  | _ =>
    let s := pyStr response
    if rootMarker.isPrefixOf s then
      let tools := extract_jsonrpc (.str s) (some (chars "tools"))
      if tools.truthy then tools else .arr []
    else .arr []

/-! ### `Client._get_next_request_id` (lines 378-381)

`self._request_id += 1; return str(self._request_id)`, with the counter
created as `0` in `__init__` (line 246).  `natToDec` models Python's
decimal `str()` of a non-negative integer. -/

/-- Decimal digits of `n`, most significant first; fuel-driven (`n`
itself is ample fuel since `n / 10` strictly decreases). -/
def natToDecAux : Nat → Nat → Chars
  | 0, _ => []
  | f + 1, n =>
    if n < 10 then [Char.ofNat (48 + n)]
    else natToDecAux f (n / 10) ++ [Char.ofNat (48 + n % 10)]

/-- Python `str(n)` for a non-negative integer. -/
def natToDec (n : Nat) : Chars := natToDecAux (n + 1) n

/-- Numeric value of a decimal digit string (used to state ordering of
the produced ids). -/
def decVal (s : Chars) : Nat := s.foldl (fun a c => 10 * a + (c.toNat - 48)) 0

/-- One call of `_get_next_request_id` on counter state `st`: the new
state and the returned id string. -/
def getNextRequestId (st : Nat) : Nat × Chars := (st + 1, natToDec (st + 1))

/-- The ids returned by `n` successive calls starting from state `st`. -/
def requestIdRun : Nat → Nat → List Chars
  | _, 0 => []
  | st, n + 1 => (getNextRequestId st).2 :: requestIdRun (getNextRequestId st).1 n

/-! ### Spec-side definitions for the round-trip claim

The encoders below are modelled from the spec: the wire shapes a
`ToolResult` is rendered into are produced by the peer and its protocol
library, not by code under `src/`, and the spec (§8, round-trip
property; §4.2 stage 2; the §8 scenario) fixes their format. -/

/-- Modelled from the spec: a success `ToolResult` holding one text
content item (the canonical single-text reply shape of the §8
scenarios). -/
def mkTextResult (v : Chars) : ToolCallResult :=
  { content := [.textContent (chars "text") v], isError := false, message := none }

/-- Modelled from the spec: the native structured wire shape of a
`ToolResult` — a response object whose `result` attribute carries the
content items, error flag and message. -/
def encodeNative (r : ToolCallResult) : Value :=
  .resp (chars "1") (some (.toolResult r.content r.isError r.message)) .null

/-- Modelled from the spec: the `root=`-prefixed debug-string wire shape
with single-quote / Python-literal styling (§8 scenario format). -/
def renderPyWire (v : Chars) : Chars :=
  chars "root=JSONRPCResponse(id='1', result=\x7b'content': [\x7b'type': 'text', 'text': '"
    ++ v ++ chars "'\x7d], 'isError': False\x7d)"

/-- Modelled from the spec: the same wire shape with double-quote JSON
styling. -/
def renderJsonWire (v : Chars) : Chars :=
  chars "root=JSONRPCResponse(id='1', result=\x7b\"content\": [\x7b\"type\": \"text\", \"text\": \""
    ++ v ++ chars "\"\x7d], \"isError\": false\x7d)"

/-- Modelled from the spec: the canonical decode outcome of a
`ToolResult` as a `(value, is_error, error_message)` triple (§3
invariant and §4.4): an error result surfaces its message with the
failure flag set; a success result surfaces its first text. -/
def canonicalTriple (r : ToolCallResult) : ParseTriple :=
  if r.isError then
    (.null, true, match r.message with | some m => .str m | none => .null)
  else (get_text_value r, false, .null)

/-- Characters that survive every stage of the string pipeline
unmangled: ASCII letters, digits and the space. -/
def safeChar (c : Char) : Bool :=
  (97 ≤ c.toNat && c.toNat ≤ 122) || (65 ≤ c.toNat && c.toNat ≤ 90)
    || (48 ≤ c.toNat && c.toNat ≤ 57) || c.toNat = 32

/-- Text values for which the string wire shapes round-trip: safe
characters only, and none of the literal tokens the normalisation of
`extract_jsonrpc` rewrites. -/
def cleanText (v : Chars) : Bool :=
  v.all safeChar && !containsTok (chars "None") v
    && !containsTok (chars "True") v && !containsTok (chars "False") v

/-- The canonical parsed result object for a single-text success reply. -/
def wireJson (v : Chars) : JsonValue :=
  .obj [(chars "content", .arr [.obj [(chars "type", .str (chars "text")),
    (chars "text", .str v)]]), (chars "isError", .bool false)]

/-- Whether the input contains a closed fragment the first pattern of
`extract_jsonrpc` can match. -/
def hasBraceFragment (s : Chars) : Bool :=
  s.tails.any fun t => resultMarker.isPrefixOf t && (t.drop 8).any (fun c => c = '\x7d')

def wire42 : Chars :=
  chars "root=JSONRPCResponse(id='1', result=\x7b'content': [\x7b'type': 'text', 'text': '42'\x7d], 'isError': False\x7d)"

def json42 : JsonValue :=
  .obj [(chars "content", .arr [.obj [(chars "type", .str (chars "text")),
    (chars "text", .str (chars "42"))]]), (chars "isError", .bool false)]

def wireBoom : Chars :=
  chars "root=JSONRPCResponse(id='1', result=\x7b'isError': True, 'message': 'boom'\x7d)"

def natErrResp : Value :=
  .resp (chars "1")
    (some (.toolResult [.dictItem [(chars "text", .str (chars "oops"))]] true
      (some (chars "boom")))) .null

def wireFoo : Chars := chars "root=JSONRPCResponse(id='2', result=\x7b'foo': 1\x7d)"

def wireEmptyTools : Chars := chars "root=JSONRPCResponse(id='2', result=\x7b'tools': []\x7d)"

def errResult : ToolCallResult :=
  ⟨[.dictItem [(chars "text", .str (chars "oops"))]], true, some (chars "boom")⟩


end McpClient

namespace McpClient

theorem safeChar_ne {c : Char} (h : safeChar c = true) :
    c ≠ '"' ∧ c ≠ '\\' ∧ ¬(c.toNat < 32) ∧ c ≠ '\'' ∧ c ≠ '\x7d' ∧ c ≠ '\x7b' := by
  simp only [safeChar, Bool.or_eq_true, Bool.and_eq_true, decide_eq_true_eq] at h
  have hn : 32 ≤ c.toNat ∧ c.toNat ≠ 34 ∧ c.toNat ≠ 92 ∧ c.toNat ≠ 39 ∧ c.toNat ≠ 125 ∧
      c.toNat ≠ 123 := by omega
  refine ⟨fun hc => ?_, fun hc => ?_, by omega, fun hc => ?_, fun hc => ?_, fun hc => ?_⟩ <;>
    (subst hc; revert hn; decide)

theorem parseStringBody_quote (rest : Chars) : parseStringBody ('"' :: rest) = some ([], rest) := by
  rw [parseStringBody.eq_def]; simp

theorem parseStringBody_safe {c : Char} (h1 : c ≠ '"') (h2 : c ≠ '\\') (h3 : ¬(c.toNat < 32))
    (rest : Chars) :
    parseStringBody (c :: rest) = (parseStringBody rest).map fun p => (c :: p.1, p.2) := by
  rw [parseStringBody.eq_def]; simp [h1, h2, h3]

theorem parseStringBody_clean (v : Chars) (hv : v.all safeChar = true) (rest : Chars) :
    parseStringBody (v ++ '"' :: rest) = some (v, rest) := by
  induction v with
  | nil => rw [List.nil_append, parseStringBody_quote]
  | cons c cs ih =>
    simp only [List.all_cons, Bool.and_eq_true] at hv
    obtain ⟨h1, h2, h3, -⟩ := safeChar_ne hv.1
    rw [List.cons_append, parseStringBody_safe h1 h2 h3, ih hv.2]
    rfl

set_option smartUnfolding false in
theorem parseVal_obj (f : Nat) (x : Chars) :
    parseVal (f + 1) ('\x7b' :: '"' :: x) =
      (parseMembers f ('"' :: x)).map fun p => (.obj p.1, p.2) := rfl

set_option smartUnfolding false in
theorem parseVal_arr (f : Nat) (x : Chars) :
    parseVal (f + 1) (' ' :: '[' :: '\x7b' :: x) =
      (parseItems f ('\x7b' :: x)).map fun p => (.arr p.1, p.2) := rfl

set_option smartUnfolding false in
theorem parseVal_strLit (f : Nat) (x : Chars) :
    parseVal (f + 1) (' ' :: '"' :: x) = (parseStringBody x).map fun p => (.str p.1, p.2) := rfl



set_option smartUnfolding false in
theorem parseMembers_ws (f : Nat) (y : Chars) :
    parseMembers (f + 1) (' ' :: y) = parseMembers (f + 1) y := rfl

set_option smartUnfolding false in
theorem parseItems_eq (f : Nat) (x : Chars) :
    parseItems (f + 1) x =
      match parseVal f x with
      | none => none
      | some (v, r1) =>
        match r1.dropWhile isJsonWs with
        | ',' :: r2 => (parseItems f r2).map fun p => (v :: p.1, p.2)
        | ']' :: r2 => some ([v], r2)
        | _ => none := rfl

theorem parseMembers_key (f : Nat) (key x : Chars) (hk : key.all safeChar = true) :
    parseMembers (f + 1) ('"' :: (key ++ '"' :: ':' :: x)) =
      match parseVal f x with
      | none => none
      | some (v, r3) =>
        match r3.dropWhile isJsonWs with
        | ',' :: r4 => (parseMembers f r4).map fun p => ((key, v) :: p.1, p.2)
        | '\x7d' :: r4 => some ([(key, v)], r4)
        | _ => none := by
  rw [parseMembers.eq_def]
  simp only [List.dropWhile_cons]
  rw [show isJsonWs '"' = false from rfl]
  simp only [Bool.false_eq_true, if_false, parseStringBody_clean key hk]
  rfl

end McpClient

namespace McpClient

theorem parseVal_falseLit2 (f : Nat) (x : Chars) :
    parseVal (f + 1) (' ' :: 'f' :: 'a' :: 'l' :: 's' :: 'e' :: x) = some (.bool false, x) := by
  rw [parseVal.eq_def]
  simp [List.dropWhile_cons, isJsonWs, List.isPrefixOf, chars]

end McpClient

namespace McpClient

theorem parseVal_wireStruct (v : Chars) (hv : v.all safeChar = true) :
    ∀ g : Nat, parseVal (g + 8)
      ('\x7b' :: '"' :: (chars "content" ++ '"' :: ':' :: (' ' :: '[' :: '\x7b' ::
        ('"' :: (chars "type" ++ '"' :: ':' :: (' ' :: '"' :: (chars "text" ++ '"' ::
          (',' :: ' ' :: ('"' :: (chars "text" ++ '"' :: ':' :: (' ' :: '"' ::
            (v ++ '"' :: ('\x7d' :: ']' :: ',' :: ' ' :: ('"' :: (chars "isError" ++ '"' :: ':' ::
              (' ' :: 'f' :: 'a' :: 'l' :: 's' :: 'e' :: '\x7d' :: [])))))))))))))))) =
      some (.obj [(chars "content", .arr [.obj [(chars "type", .str (chars "text")),
        (chars "text", .str v)]]), (chars "isError", .bool false)], []) := by
  intro g
  -- the tail after the closing quote of the text value
  set X8 : Chars := ('\x7d' :: ']' :: ',' :: ' ' :: ('"' :: (chars "isError" ++ '"' :: ':' ::
    (' ' :: 'f' :: 'a' :: 'l' :: 's' :: 'e' :: '\x7d' :: [])))) with hX8
  -- text value
  have h1 : ∀ g', parseVal (g' + 1) (' ' :: '"' :: (v ++ '"' :: X8)) = some (.str v, X8) := by
    intro g'; rw [parseVal_strLit, parseStringBody_clean v hv]; rfl
  -- "type" value
  have htxt : ∀ g' (r : Chars), parseVal (g' + 1) (' ' :: '"' :: (chars "text" ++ '"' :: r)) =
      some (.str (chars "text"), r) := by
    intro g' r; rw [parseVal_strLit, parseStringBody_clean (chars "text") (by decide)]; rfl
  -- the "text" member
  have h2 : ∀ g', parseMembers (g' + 2) ('"' :: (chars "text" ++ '"' :: ':' ::
      (' ' :: '"' :: (v ++ '"' :: X8)))) =
      some ([(chars "text", .str v)], ']' :: ',' :: ' ' :: ('"' :: (chars "isError" ++ '"' :: ':' ::
        (' ' :: 'f' :: 'a' :: 'l' :: 's' :: 'e' :: '\x7d' :: [])))) := by
    intro g'
    rw [parseMembers_key _ (chars "text") _ (by decide), h1]
    rfl
  -- the inner object members, from "type"
  have h3 : ∀ g', parseMembers (g' + 3) ('"' :: (chars "type" ++ '"' :: ':' :: (' ' :: '"' ::
      (chars "text" ++ '"' :: (',' :: ' ' :: ('"' :: (chars "text" ++ '"' :: ':' ::
        (' ' :: '"' :: (v ++ '"' :: X8))))))))) =
      some ([(chars "type", .str (chars "text")), (chars "text", .str v)],
        ']' :: ',' :: ' ' :: ('"' :: (chars "isError" ++ '"' :: ':' ::
          (' ' :: 'f' :: 'a' :: 'l' :: 's' :: 'e' :: '\x7d' :: [])))) := by
    intro g'
    rw [parseMembers_key _ (chars "type") _ (by decide), htxt]
    show (parseMembers (g' + 2) (' ' :: '"' :: (chars "text" ++ '"' :: ':' ::
      (' ' :: '"' :: (v ++ '"' :: X8))))).map _ = _
    rw [parseMembers_ws, h2]
    rfl
  -- the inner object
  have h4 : ∀ g', parseVal (g' + 4) ('\x7b' :: '"' :: (chars "type" ++ '"' :: ':' :: (' ' :: '"' ::
      (chars "text" ++ '"' :: (',' :: ' ' :: ('"' :: (chars "text" ++ '"' :: ':' ::
        (' ' :: '"' :: (v ++ '"' :: X8))))))))) =
      some (.obj [(chars "type", .str (chars "text")), (chars "text", .str v)],
        ']' :: ',' :: ' ' :: ('"' :: (chars "isError" ++ '"' :: ':' ::
          (' ' :: 'f' :: 'a' :: 'l' :: 's' :: 'e' :: '\x7d' :: [])))) := by
    intro g'
    rw [parseVal_obj, h3]
    rfl
  -- the singleton item list
  have h5 : ∀ g', parseItems (g' + 5) ('\x7b' :: '"' :: (chars "type" ++ '"' :: ':' :: (' ' :: '"' ::
      (chars "text" ++ '"' :: (',' :: ' ' :: ('"' :: (chars "text" ++ '"' :: ':' ::
        (' ' :: '"' :: (v ++ '"' :: X8))))))))) =
      some ([.obj [(chars "type", .str (chars "text")), (chars "text", .str v)]],
        ',' :: ' ' :: ('"' :: (chars "isError" ++ '"' :: ':' ::
          (' ' :: 'f' :: 'a' :: 'l' :: 's' :: 'e' :: '\x7d' :: [])))) := by
    intro g'
    rw [parseItems_eq, h4]
    rfl
  -- the array value
  have h6 : ∀ g', parseVal (g' + 6) (' ' :: '[' :: '\x7b' :: ('"' :: (chars "type" ++ '"' :: ':' ::
      (' ' :: '"' :: (chars "text" ++ '"' :: (',' :: ' ' :: ('"' :: (chars "text" ++ '"' :: ':' ::
        (' ' :: '"' :: (v ++ '"' :: X8)))))))))) =
      some (.arr [.obj [(chars "type", .str (chars "text")), (chars "text", .str v)]],
        ',' :: ' ' :: ('"' :: (chars "isError" ++ '"' :: ':' ::
          (' ' :: 'f' :: 'a' :: 'l' :: 's' :: 'e' :: '\x7d' :: [])))) := by
    intro g'
    rw [parseVal_arr, h5]
    rfl
  -- the "isError" member
  have h7 : ∀ g', parseMembers (g' + 2) ('"' :: (chars "isError" ++ '"' :: ':' ::
      (' ' :: 'f' :: 'a' :: 'l' :: 's' :: 'e' :: '\x7d' :: []))) =
      some ([(chars "isError", .bool false)], []) := by
    intro g'
    rw [parseMembers_key _ (chars "isError") _ (by decide), parseVal_falseLit2]
    rfl
  -- the outer members, from "content"
  have h8 : parseMembers (g + 7) ('"' :: (chars "content" ++ '"' :: ':' :: (' ' :: '[' :: '\x7b' ::
      ('"' :: (chars "type" ++ '"' :: ':' :: (' ' :: '"' :: (chars "text" ++ '"' ::
        (',' :: ' ' :: ('"' :: (chars "text" ++ '"' :: ':' :: (' ' :: '"' ::
          (v ++ '"' :: X8)))))))))))) =
      some ([(chars "content", .arr [.obj [(chars "type", .str (chars "text")),
        (chars "text", .str v)]]), (chars "isError", .bool false)], []) := by
    rw [parseMembers_key _ (chars "content") _ (by decide), h6]
    show (parseMembers (g + 6) (' ' :: ('"' :: (chars "isError" ++ '"' :: ':' ::
      (' ' :: 'f' :: 'a' :: 'l' :: 's' :: 'e' :: '\x7d' :: []))))).map _ = _
    rw [parseMembers_ws, h7]
    rfl
  rw [parseVal_obj, h8]
  rfl

end McpClient

namespace McpClient

/-- Bool-level prefix facts -/
theorem isPrefixOf_append_self (p t : Chars) : p.isPrefixOf (p ++ t) = true := by
  induction p with
  | nil => simp [List.isPrefixOf]
  | cons c cs ih => simp [List.isPrefixOf, ih]

theorem not_isPrefixOf_append {p a b : Chars}
    (h1 : ¬ p <+: a) (h2 : ¬ a <+: p) : p.isPrefixOf (a ++ b) = false := by
  rw [← Bool.not_eq_true, List.isPrefixOf_iff_prefix]
  intro h
  rcases Nat.le_total p.length a.length with hl | hl
  · exact h1 ((List.isPrefix_append_of_length hl).mp h)
  · refine h2 ?_
    have := List.prefix_iff_eq_take.mp h
    rw [List.take_append_eq_append_take, List.take_of_length_le hl] at this
    exact ⟨_, this.symm⟩

/-- findResultStart skips a head block none of whose nonempty tails can
begin a match of `result={`, even continuing into the remainder. -/
theorem findResultStart_append (t0 : Chars)
    (h : ∀ t ∈ t0.tails, t = [] ∨ (¬ resultMarker <+: t ∧ ¬ t <+: resultMarker)) (r : Chars) :
    findResultStart (t0 ++ r) = findResultStart r := by
  induction t0 with
  | nil => rw [List.nil_append]
  | cons c cs ih =>
    rw [List.cons_append, findResultStart]
    have hc := h (c :: cs) (by rw [List.tails_cons]; exact List.mem_cons_self _ _)
    rcases hc with hc | hc
    · cases hc
    · have hpre : resultMarker.isPrefixOf (c :: (cs ++ r)) = false := by
        rw [← List.cons_append]; exact not_isPrefixOf_append hc.1 hc.2
      rw [hpre]
      simp only [Bool.false_eq_true, if_false]
      exact ih fun t ht => h t (by rw [List.tails_cons]; exact List.mem_cons_of_mem _ ht)

theorem findResultStart_marker (r : Chars) :
    findResultStart (resultMarker ++ r) = some ('\x7b' :: r) := by
  rw [findResultStart.eq_def]
  have h8 : resultMarker = 'r' :: 'e' :: 's' :: 'u' :: 'l' :: 't' :: '=' :: '\x7b' :: [] := by decide
  rw [h8]
  simp [List.isPrefixOf, List.cons_append]

/-- takeUpToClose over a block without a closing brace -/
theorem takeUpToClose_append {a : Chars} (h : ∀ c ∈ a, c ≠ '\x7d') (b : Chars) :
    takeUpToClose (a ++ b) = (takeUpToClose b).map (a ++ ·) := by
  induction a with
  | nil => simp
  | cons c cs ih =>
    rw [List.cons_append, takeUpToClose]
    have hc : c ≠ '\x7d' := h c (List.mem_cons_self _ _)
    rw [if_neg hc, ih fun x hx => h x (List.mem_cons_of_mem _ hx)]
    cases takeUpToClose b <;> rfl

/-- scanClose2 over a block without a closing brace -/
theorem scanClose2_append {a : Chars} (h : ∀ c ∈ a, c ≠ '\x7d') (b : Chars) :
    scanClose2 (a ++ b) = (scanClose2 b).map (a ++ ·) := by
  induction a with
  | nil => simp
  | cons c cs ih =>
    rw [List.cons_append, scanClose2]
    have hc : c ≠ '\x7d' := h c (List.mem_cons_self _ _)
    have : (c = '\x7d' && (followsErrorTag (cs ++ b) || followsFinalParen (cs ++ b))) = false := by
      simp [hc]
    rw [this]
    simp only [Bool.false_eq_true, if_false]
    rw [ih fun x hx => h x (List.mem_cons_of_mem _ hx)]
    cases scanClose2 b <;> rfl

end McpClient

namespace McpClient

theorem pyReplaceF_nil' (f : Nat) (pat rep : Chars) : pyReplaceF f [] pat rep = [] := by
  cases f <;> rfl

theorem pyReplaceF_fuel {pat : Chars} (hpat : pat ≠ []) (rep : Chars) :
    ∀ (f : Nat) (s : Chars) (g : Nat), s.length ≤ f → s.length ≤ g →
      pyReplaceF f s pat rep = pyReplaceF g s pat rep := by
  intro f
  induction f with
  | zero =>
    intro s g hf _
    rw [List.length_eq_zero.mp (Nat.le_zero.mp hf)]
    rw [pyReplaceF_nil', pyReplaceF_nil']
  | succ f' ih =>
    intro s g hf hg
    match s, g with
    | [], _ => rw [pyReplaceF_nil', pyReplaceF_nil']
    | c :: cs, g' + 1 =>
      rw [pyReplaceF, pyReplaceF]
      by_cases hm : pat.isPrefixOf (c :: cs) = true
      · rw [if_pos hm, if_pos hm]
        have hlen : (List.drop pat.length (c :: cs)).length ≤ cs.length := by
          rw [List.length_drop]
          have : 1 ≤ pat.length := by
            cases pat with
            | nil => exact absurd rfl hpat
            | cons _ _ => simp
          simp only [List.length_cons]
          omega
        have h1 : (List.drop pat.length (c :: cs)).length ≤ f' := by
          simp only [List.length_cons] at hf; omega
        have h2 : (List.drop pat.length (c :: cs)).length ≤ g' := by
          simp only [List.length_cons] at hg; omega
        rw [ih _ g' h1 h2]
      · rw [if_neg hm, if_neg hm]
        have h1 : cs.length ≤ f' := by simp only [List.length_cons] at hf; omega
        have h2 : cs.length ≤ g' := by simp only [List.length_cons] at hg; omega
        rw [ih cs g' h1 h2]

theorem containsTok_cons {pat : Chars} {c : Char} {rest : Chars}
    (h : containsTok pat (c :: rest) = false) :
    pat.isPrefixOf (c :: rest) = false ∧ containsTok pat rest = false := by
  rw [containsTok] at h
  exact ⟨by simp_all, by simp_all⟩

theorem pyReplaceF_append_ok {pat : Chars} (hpat : pat ≠ []) (rep : Chars) (a : Chars)
    (h : ∀ t ∈ a.tails, t = [] ∨ (¬ pat <+: t ∧ ¬ t <+: pat)) :
    ∀ (b : Chars) (f : Nat), (a ++ b).length ≤ f →
      pyReplaceF f (a ++ b) pat rep = a ++ pyReplaceF b.length b pat rep := by
  induction a with
  | nil =>
    intro b f hf
    rw [List.nil_append] at hf ⊢
    rw [List.nil_append]
    exact pyReplaceF_fuel hpat rep f b b.length hf (Nat.le_refl _)
  | cons c cs ih =>
    intro b f hf
    have hf1 : 1 ≤ f := by
      simp only [List.cons_append, List.length_cons] at hf; omega
    obtain ⟨f', rfl⟩ : ∃ f', f = f' + 1 := ⟨f - 1, by omega⟩
    rw [List.cons_append, pyReplaceF]
    have hc := h (c :: cs) (by rw [List.tails_cons]; exact List.mem_cons_self _ _)
    rcases hc with hc | hc
    · cases hc
    · have hpre : pat.isPrefixOf (c :: (cs ++ b)) = false := by
        rw [← List.cons_append]; exact not_isPrefixOf_append hc.1 hc.2
      rw [hpre]
      simp only [Bool.false_eq_true, if_false]
      rw [ih (fun t ht => h t (by rw [List.tails_cons]; exact List.mem_cons_of_mem _ ht)) b f'
        (by simp only [List.cons_append, List.length_cons] at hf; omega)]
      rfl

theorem pyReplaceF_append_tok {pat : Chars} (hpat : pat ≠ []) (rep : Chars) {b : Chars}
    (hb : ∀ k, k < pat.length → 0 < k → (List.drop k pat).isPrefixOf b = false) :
    ∀ (v : Chars), containsTok pat v = false → ∀ (f : Nat), (v ++ b).length ≤ f →
      pyReplaceF f (v ++ b) pat rep = v ++ pyReplaceF b.length b pat rep := by
  intro v
  induction v with
  | nil =>
    intro _ f hf
    rw [List.nil_append] at hf ⊢
    rw [List.nil_append]
    exact pyReplaceF_fuel hpat rep f b b.length hf (Nat.le_refl _)
  | cons c cs ih =>
    intro hv f hf
    obtain ⟨hv1, hv2⟩ := containsTok_cons hv
    have hf1 : 1 ≤ f := by
      simp only [List.cons_append, List.length_cons] at hf; omega
    obtain ⟨f', rfl⟩ : ∃ f', f = f' + 1 := ⟨f - 1, by omega⟩
    rw [List.cons_append, pyReplaceF]
    have hpre : pat.isPrefixOf (c :: (cs ++ b)) = false := by
      rw [← Bool.not_eq_true, ← List.cons_append, List.isPrefixOf_iff_prefix]
      intro hp
      rcases Nat.le_total pat.length (c :: cs).length with hl | hl
      · have : pat <+: c :: cs := (List.isPrefix_append_of_length hl).mp hp
        rw [← List.isPrefixOf_iff_prefix, hv1] at this
        cases this
      · have htake := List.prefix_iff_eq_take.mp hp
        rw [List.take_append_eq_append_take, List.take_of_length_le hl] at htake
        have hdrop : List.drop (c :: cs).length pat <+: b := by
          have : List.drop (c :: cs).length pat =
              List.take (pat.length - (c :: cs).length) b := by
            rw [htake]
            rw [List.drop_append_eq_append_drop]
            simp
          rw [this]
          exact List.take_prefix _ _
        have hk := hb (c :: cs).length ?_ (by simp)
        · rw [← List.isPrefixOf_iff_prefix, hk] at hdrop
          cases hdrop
        · rcases Nat.eq_or_lt_of_le hl with he | hlt
          · -- pat.length = (c::cs).length: then pat <+: c::cs fully
            exfalso
            have : pat <+: c :: cs := by
              rw [ List.prefix_iff_eq_take]
              rw [htake, ← he]
              simp [List.take_append_eq_append_take, ← he]
            rw [← List.isPrefixOf_iff_prefix, hv1] at this
            cases this
          · exact hlt
    rw [hpre]
    simp only [Bool.false_eq_true, if_false]
    rw [ih hv2 f' (by simp only [List.cons_append, List.length_cons] at hf; omega)]
    rw [List.cons_append]

end McpClient

namespace McpClient

theorem pyReplaceF_single (q r : Char) :
    ∀ (f : Nat) (s : Chars), s.length ≤ f →
      pyReplaceF f s [q] [r] = s.map fun c => if c = q then r else c := by
  intro f
  induction f with
  | zero =>
    intro s hf
    rw [List.length_eq_zero.mp (Nat.le_zero.mp hf)]
    rfl
  | succ f' ih =>
    intro s hf
    match s with
    | [] => rfl
    | c :: cs =>
      rw [pyReplaceF, List.map_cons]
      have hlen : cs.length ≤ f' := by simp only [List.length_cons] at hf; omega
      by_cases hq : q = c
      · have hm : List.isPrefixOf [q] (c :: cs) = true := by
          simp [List.isPrefixOf, hq]
        rw [if_pos hm]
        subst hq
        simp only [List.length_cons, List.length_nil]
        rw [List.drop_one, List.tail_cons]  -- drop [q].length (c::cs) = cs
        rw [ih cs hlen]
        simp
      · have hm : List.isPrefixOf [q] (c :: cs) = false := by
          simp [List.isPrefixOf, hq]
        rw [hm]
        simp only [Bool.false_eq_true, if_false]
        rw [ih cs hlen]
        have : c ≠ q := fun hc => hq hc.symm
        simp [this]

theorem map_safe_id {v : Chars} (hv : v.all safeChar = true) :
    (v.map fun c => if c = '\'' then '"' else c) = v := by
  induction v with
  | nil => rfl
  | cons c cs ih =>
    simp only [List.all_cons, Bool.and_eq_true] at hv
    obtain ⟨-, -, -, h4, -, -⟩ := safeChar_ne hv.1
    rw [List.map_cons, if_neg h4, ih hv.2]

theorem all_safe_ne_close {v : Chars} (hv : v.all safeChar = true) :
    ∀ c ∈ v, c ≠ '\x7d' := by
  intro c hc
  have := List.all_eq_true.mp hv c hc
  exact (safeChar_ne this).2.2.2.2.1

end McpClient

namespace McpClient

theorem jsonLoads_wire (v : Chars) (hv : v.all safeChar = true) :
    jsonLoads ('\x7b' :: (chars "\"content\": [\x7b\"type\": \"text\", \"text\": \"" ++
      (v ++ chars "\"\x7d], \"isError\": false\x7d"))) = some (wireJson v) := by
  have hbridge : '\x7b' :: (chars "\"content\": [\x7b\"type\": \"text\", \"text\": \"" ++
      (v ++ chars "\"\x7d], \"isError\": false\x7d")) =
      '\x7b' :: '"' :: (chars "content" ++ '"' :: ':' :: (' ' :: '[' :: '\x7b' ::
        ('"' :: (chars "type" ++ '"' :: ':' :: (' ' :: '"' :: (chars "text" ++ '"' ::
          (',' :: ' ' :: ('"' :: (chars "text" ++ '"' :: ':' :: (' ' :: '"' ::
            (v ++ '"' :: ('\x7d' :: ']' :: ',' :: ' ' :: ('"' :: (chars "isError" ++ '"' :: ':' ::
              (' ' :: 'f' :: 'a' :: 'l' :: 's' :: 'e' :: '\x7d' :: []))))))))))))))) := by
    have e1 : chars "\"content\": [\x7b\"type\": \"text\", \"text\": \"" =
        ['"', 'c', 'o', 'n', 't', 'e', 'n', 't', '"', ':', ' ', '[', '\x7b', '"', 't', 'y', 'p',
         'e', '"', ':', ' ', '"', 't', 'e', 'x', 't', '"', ',', ' ', '"', 't', 'e', 'x', 't',
         '"', ':', ' ', '"'] := by decide
    have e2 : chars "\"\x7d], \"isError\": false\x7d" =
        ['"', '\x7d', ']', ',', ' ', '"', 'i', 's', 'E', 'r', 'r', 'o', 'r', '"', ':', ' ', 'f',
         'a', 'l', 's', 'e', '\x7d'] := by decide
    have e3 : chars "content" = ['c', 'o', 'n', 't', 'e', 'n', 't'] := by decide
    have e4 : chars "type" = ['t', 'y', 'p', 'e'] := by decide
    have e5 : chars "text" = ['t', 'e', 'x', 't'] := by decide
    have e6 : chars "isError" = ['i', 's', 'E', 'r', 'r', 'o', 'r'] := by decide
    rw [e1, e2, e3, e4, e5, e6]
    simp only [List.cons_append, List.nil_append, List.append_assoc]
  rw [hbridge, jsonLoads]
  have l3 : (chars "content").length = 7 := by decide
  have l4 : (chars "type").length = 4 := by decide
  have l5 : (chars "text").length = 4 := by decide
  have l6 : (chars "isError").length = 7 := by decide
  have hg : ('\x7b' :: '"' :: (chars "content" ++ '"' :: ':' :: (' ' :: '[' :: '\x7b' ::
      ('"' :: (chars "type" ++ '"' :: ':' :: (' ' :: '"' :: (chars "text" ++ '"' ::
        (',' :: ' ' :: ('"' :: (chars "text" ++ '"' :: ':' :: (' ' :: '"' ::
          (v ++ '"' :: ('\x7d' :: ']' :: ',' :: ' ' :: ('"' :: (chars "isError" ++ '"' :: ':' ::
            (' ' :: 'f' :: 'a' :: 'l' :: 's' :: 'e' :: '\x7d' ::
              []))))))))))))))) : Chars).length + 1 = (v.length + 54) + 8 := by
    simp only [List.length_cons, List.length_append, List.length_nil, l3, l4, l5, l6]
    omega
  rw [hg, parseVal_wireStruct v hv (v.length + 54)]
  rfl

end McpClient

namespace McpClient

set_option maxHeartbeats 1000000 in
theorem pyWire_split (v : Chars) : renderPyWire v = chars "root=JSONRPCResponse(id='1', " ++
    (resultMarker ++ (chars "'content': [\x7b'type': 'text', 'text': '" ++
      (v ++ chars "'\x7d], 'isError': False\x7d)"))) := by
  rw [renderPyWire]
  have e : chars "root=JSONRPCResponse(id='1', result=\x7b'content': [\x7b'type': 'text', 'text': '" =
      chars "root=JSONRPCResponse(id='1', " ++ (resultMarker ++
        chars "'content': [\x7b'type': 'text', 'text': '") := by decide
  rw [e]
  simp only [List.append_assoc]

theorem pyWire_isEmpty (v : Chars) : (renderPyWire v).isEmpty = false := by
  rw [pyWire_split]
  have e : chars "root=JSONRPCResponse(id='1', " = 'r' :: chars "oot=JSONRPCResponse(id='1', " := by
    decide
  rw [e, List.cons_append]
  rfl

theorem pyWire_root (v : Chars) : rootMarker.isPrefixOf (renderPyWire v) = true := by
  rw [pyWire_split]
  have e : chars "root=JSONRPCResponse(id='1', " = rootMarker ++ chars "JSONRPCResponse(id='1', " := by
    decide
  rw [e, List.append_assoc]
  exact isPrefixOf_append_self _ _

set_option maxHeartbeats 1000000 in
theorem pyWire_find (v : Chars) : findResultStart (renderPyWire v) =
    some ('\x7b' :: (chars "'content': [\x7b'type': 'text', 'text': '" ++
      (v ++ chars "'\x7d], 'isError': False\x7d)"))) := by
  rw [pyWire_split, findResultStart_append _ (by decide), findResultStart_marker]

set_option maxHeartbeats 1000000 in
theorem pyWire_reShort (v : Chars) (hsafe : v.all safeChar = true) :
    reResultShort (renderPyWire v) =
      some ('\x7b' :: (chars "'content': [\x7b'type': 'text', 'text': '" ++
        (v ++ chars "'\x7d"))) := by
  rw [reResultShort, pyWire_find]
  show (takeUpToClose (chars "'content': [\x7b'type': 'text', 'text': '" ++
    (v ++ chars "'\x7d], 'isError': False\x7d)"))).map (fun x => '\x7b' :: x) = _
  rw [takeUpToClose_append (by decide), takeUpToClose_append (all_safe_ne_close hsafe)]
  have e : takeUpToClose (chars "'\x7d], 'isError': False\x7d)") = some (chars "'\x7d") := by decide
  rw [e]
  rfl

set_option maxHeartbeats 1000000 in
theorem pyWire_reFull (v : Chars) (hsafe : v.all safeChar = true) :
    reResultFull (renderPyWire v) =
      some ('\x7b' :: (chars "'content': [\x7b'type': 'text', 'text': '" ++
        (v ++ chars "'\x7d], 'isError': False\x7d"))) := by
  rw [reResultFull, pyWire_find]
  show (scanClose2 (chars "'content': [\x7b'type': 'text', 'text': '" ++
    (v ++ chars "'\x7d], 'isError': False\x7d)"))).map (fun x => '\x7b' :: x) = _
  rw [scanClose2_append (by decide), scanClose2_append (all_safe_ne_close hsafe)]
  have e : scanClose2 (chars "'\x7d], 'isError': False\x7d)") =
      some (chars "'\x7d], 'isError': False\x7d") := by decide
  rw [e]
  rfl

set_option maxHeartbeats 1000000 in
theorem pyGroup_quote (v : Chars) (hsafe : v.all safeChar = true) :
    pyReplace ('\x7b' :: (chars "'content': [\x7b'type': 'text', 'text': '" ++
        (v ++ chars "'\x7d], 'isError': False\x7d"))) (chars "'") (chars "\"") =
      '\x7b' :: (chars "\"content\": [\x7b\"type\": \"text\", \"text\": \"" ++
        (v ++ chars "\"\x7d], \"isError\": False\x7d")) := by
  rw [pyReplace]
  rw [show (chars "'").isEmpty = false from rfl]
  simp only [Bool.false_eq_true, if_false]
  rw [show chars "'" = ['\''] from rfl, show chars "\"" = ['"'] from rfl]
  rw [pyReplaceF_single _ _ _ _ (Nat.le_refl _)]
  rw [List.map_cons, List.map_append, List.map_append, map_safe_id hsafe]
  have e1 : (chars "'content': [\x7b'type': 'text', 'text': '").map
      (fun c => if c = '\'' then '"' else c) =
      chars "\"content\": [\x7b\"type\": \"text\", \"text\": \"" := by decide
  have e2 : (chars "'\x7d], 'isError': False\x7d").map (fun c => if c = '\'' then '"' else c) =
      chars "\"\x7d], \"isError\": False\x7d" := by decide
  rw [e1, e2]
  rfl

set_option maxHeartbeats 1000000 in
theorem pyGroup_none (v : Chars) (hN : containsTok (chars "None") v = false) :
    pyReplace ('\x7b' :: (chars "\"content\": [\x7b\"type\": \"text\", \"text\": \"" ++
        (v ++ chars "\"\x7d], \"isError\": False\x7d"))) (chars "None") (chars "null") =
      '\x7b' :: (chars "\"content\": [\x7b\"type\": \"text\", \"text\": \"" ++
        (v ++ chars "\"\x7d], \"isError\": False\x7d")) := by
  rw [pyReplace]
  rw [show (chars "None").isEmpty = false from rfl]
  simp only [Bool.false_eq_true, if_false]
  rw [← List.cons_append]
  rw [pyReplaceF_append_ok (by decide) _ _ (by decide) _ _ (Nat.le_refl _)]
  rw [pyReplaceF_append_tok (by decide) _ (by decide) v hN _ (Nat.le_refl _)]
  have e : pyReplaceF (chars "\"\x7d], \"isError\": False\x7d").length
      (chars "\"\x7d], \"isError\": False\x7d") (chars "None") (chars "null") =
      chars "\"\x7d], \"isError\": False\x7d" := by decide
  rw [e, List.cons_append]

set_option maxHeartbeats 1000000 in
theorem pyGroup_true (v : Chars) (hT : containsTok (chars "True") v = false) :
    pyReplace ('\x7b' :: (chars "\"content\": [\x7b\"type\": \"text\", \"text\": \"" ++
        (v ++ chars "\"\x7d], \"isError\": False\x7d"))) (chars "True") (chars "true") =
      '\x7b' :: (chars "\"content\": [\x7b\"type\": \"text\", \"text\": \"" ++
        (v ++ chars "\"\x7d], \"isError\": False\x7d")) := by
  rw [pyReplace]
  rw [show (chars "True").isEmpty = false from rfl]
  simp only [Bool.false_eq_true, if_false]
  rw [← List.cons_append]
  rw [pyReplaceF_append_ok (by decide) _ _ (by decide) _ _ (Nat.le_refl _)]
  rw [pyReplaceF_append_tok (by decide) _ (by decide) v hT _ (Nat.le_refl _)]
  have e : pyReplaceF (chars "\"\x7d], \"isError\": False\x7d").length
      (chars "\"\x7d], \"isError\": False\x7d") (chars "True") (chars "true") =
      chars "\"\x7d], \"isError\": False\x7d" := by decide
  rw [e, List.cons_append]

set_option maxHeartbeats 1000000 in
theorem pyGroup_false (v : Chars) (hF : containsTok (chars "False") v = false) :
    pyReplace ('\x7b' :: (chars "\"content\": [\x7b\"type\": \"text\", \"text\": \"" ++
        (v ++ chars "\"\x7d], \"isError\": False\x7d"))) (chars "False") (chars "false") =
      '\x7b' :: (chars "\"content\": [\x7b\"type\": \"text\", \"text\": \"" ++
        (v ++ chars "\"\x7d], \"isError\": false\x7d")) := by
  rw [pyReplace]
  rw [show (chars "False").isEmpty = false from rfl]
  simp only [Bool.false_eq_true, if_false]
  rw [← List.cons_append]
  rw [pyReplaceF_append_ok (by decide) _ _ (by decide) _ _ (Nat.le_refl _)]
  rw [pyReplaceF_append_tok (by decide) _ (by decide) v hF _ (Nat.le_refl _)]
  have e : pyReplaceF (chars "\"\x7d], \"isError\": False\x7d").length
      (chars "\"\x7d], \"isError\": False\x7d") (chars "False") (chars "false") =
      chars "\"\x7d], \"isError\": false\x7d" := by decide
  rw [e, List.cons_append]

theorem extract_jsonrpc_eval {s g1 g2 : Chars} {rj : JsonValue}
    (h0 : s.isEmpty = false) (h1 : rootMarker.isPrefixOf s = true)
    (h2 : reResultShort s = some g1) (h3 : reResultFull s = some g2)
    (h4 : jsonLoads (pyReplace (pyReplace (pyReplace (pyReplace g2 (chars "'") (chars "\""))
      (chars "None") (chars "null")) (chars "True") (chars "true"))
        (chars "False") (chars "false")) = some rj) :
    extract_jsonrpc (.str s) none = rj := by
  rw [extract_jsonrpc, h0]
  simp only [Bool.false_eq_true, if_false]
  rw [h1]
  simp only [Bool.not_true, Bool.false_eq_true, if_false]
  rw [h2, h3]
  simp only [Option.getD_some]
  rw [h4]

set_option maxHeartbeats 1000000 in
theorem extract_renderPyWire (v : Chars) (hsafe : v.all safeChar = true)
    (hN : containsTok (chars "None") v = false) (hT : containsTok (chars "True") v = false)
    (hF : containsTok (chars "False") v = false) :
    extract_jsonrpc (.str (renderPyWire v)) none = wireJson v := by
  refine extract_jsonrpc_eval (pyWire_isEmpty v) (pyWire_root v) (pyWire_reShort v hsafe)
    (pyWire_reFull v hsafe) ?_
  rw [pyGroup_quote v hsafe, pyGroup_none v hN, pyGroup_true v hT, pyGroup_false v hF]
  exact jsonLoads_wire v hsafe


set_option maxHeartbeats 1000000 in
theorem jWire_split (v : Chars) : renderJsonWire v = chars "root=JSONRPCResponse(id='1', " ++
    (resultMarker ++ (chars "\"content\": [\x7b\"type\": \"text\", \"text\": \"" ++
      (v ++ chars "\"\x7d], \"isError\": false\x7d)"))) := by
  rw [renderJsonWire]
  have e : chars "root=JSONRPCResponse(id='1', result=\x7b\"content\": [\x7b\"type\": \"text\", \"text\": \"" =
      chars "root=JSONRPCResponse(id='1', " ++ (resultMarker ++
        chars "\"content\": [\x7b\"type\": \"text\", \"text\": \"") := by decide
  rw [e]
  simp only [List.append_assoc]

theorem jWire_isEmpty (v : Chars) : (renderJsonWire v).isEmpty = false := by
  rw [jWire_split]
  have e : chars "root=JSONRPCResponse(id='1', " = 'r' :: chars "oot=JSONRPCResponse(id='1', " := by
    decide
  rw [e, List.cons_append]
  rfl

theorem jWire_root (v : Chars) : rootMarker.isPrefixOf (renderJsonWire v) = true := by
  rw [jWire_split]
  have e : chars "root=JSONRPCResponse(id='1', " = rootMarker ++ chars "JSONRPCResponse(id='1', " := by
    decide
  rw [e, List.append_assoc]
  exact isPrefixOf_append_self _ _

set_option maxHeartbeats 1000000 in
theorem jWire_find (v : Chars) : findResultStart (renderJsonWire v) =
    some ('\x7b' :: (chars "\"content\": [\x7b\"type\": \"text\", \"text\": \"" ++
      (v ++ chars "\"\x7d], \"isError\": false\x7d)"))) := by
  rw [jWire_split, findResultStart_append _ (by decide), findResultStart_marker]

set_option maxHeartbeats 1000000 in
theorem jWire_reShort (v : Chars) (hsafe : v.all safeChar = true) :
    reResultShort (renderJsonWire v) =
      some ('\x7b' :: (chars "\"content\": [\x7b\"type\": \"text\", \"text\": \"" ++
        (v ++ chars "\"\x7d"))) := by
  rw [reResultShort, jWire_find]
  show (takeUpToClose (chars "\"content\": [\x7b\"type\": \"text\", \"text\": \"" ++
    (v ++ chars "\"\x7d], \"isError\": false\x7d)"))).map (fun x => '\x7b' :: x) = _
  rw [takeUpToClose_append (by decide), takeUpToClose_append (all_safe_ne_close hsafe)]
  have e : takeUpToClose (chars "\"\x7d], \"isError\": false\x7d)") = some (chars "\"\x7d") := by
    decide
  rw [e]
  rfl

set_option maxHeartbeats 1000000 in
theorem jWire_reFull (v : Chars) (hsafe : v.all safeChar = true) :
    reResultFull (renderJsonWire v) =
      some ('\x7b' :: (chars "\"content\": [\x7b\"type\": \"text\", \"text\": \"" ++
        (v ++ chars "\"\x7d], \"isError\": false\x7d"))) := by
  rw [reResultFull, jWire_find]
  show (scanClose2 (chars "\"content\": [\x7b\"type\": \"text\", \"text\": \"" ++
    (v ++ chars "\"\x7d], \"isError\": false\x7d)"))).map (fun x => '\x7b' :: x) = _
  rw [scanClose2_append (by decide), scanClose2_append (all_safe_ne_close hsafe)]
  have e : scanClose2 (chars "\"\x7d], \"isError\": false\x7d)") =
      some (chars "\"\x7d], \"isError\": false\x7d") := by decide
  rw [e]
  rfl

set_option maxHeartbeats 1000000 in
theorem jGroup_quote (v : Chars) (hsafe : v.all safeChar = true) :
    pyReplace ('\x7b' :: (chars "\"content\": [\x7b\"type\": \"text\", \"text\": \"" ++
        (v ++ chars "\"\x7d], \"isError\": false\x7d"))) (chars "'") (chars "\"") =
      '\x7b' :: (chars "\"content\": [\x7b\"type\": \"text\", \"text\": \"" ++
        (v ++ chars "\"\x7d], \"isError\": false\x7d")) := by
  rw [pyReplace]
  rw [show (chars "'").isEmpty = false from rfl]
  simp only [Bool.false_eq_true, if_false]
  rw [show chars "'" = ['\''] from rfl, show chars "\"" = ['"'] from rfl]
  rw [pyReplaceF_single _ _ _ _ (Nat.le_refl _)]
  rw [List.map_cons, List.map_append, List.map_append, map_safe_id hsafe]
  have e1 : (chars "\"content\": [\x7b\"type\": \"text\", \"text\": \"").map
      (fun c => if c = '\'' then '"' else c) =
      chars "\"content\": [\x7b\"type\": \"text\", \"text\": \"" := by decide
  have e2 : (chars "\"\x7d], \"isError\": false\x7d").map (fun c => if c = '\'' then '"' else c) =
      chars "\"\x7d], \"isError\": false\x7d" := by decide
  rw [e1, e2]
  rfl

set_option maxHeartbeats 1000000 in
theorem jGroup_jnone (v : Chars) (hv : containsTok (chars "None") v = false) :
    pyReplace ('\x7b' :: (chars "\"content\": [\x7b\"type\": \"text\", \"text\": \"" ++
        (v ++ chars "\"\x7d], \"isError\": false\x7d"))) (chars "None") (chars "null") =
      '\x7b' :: (chars "\"content\": [\x7b\"type\": \"text\", \"text\": \"" ++
        (v ++ chars "\"\x7d], \"isError\": false\x7d")) := by
  rw [pyReplace]
  rw [show (chars "None").isEmpty = false from rfl]
  simp only [Bool.false_eq_true, if_false]
  rw [← List.cons_append]
  rw [pyReplaceF_append_ok (by decide) _ _ (by decide) _ _ (Nat.le_refl _)]
  rw [pyReplaceF_append_tok (by decide) _ (by decide) v hv _ (Nat.le_refl _)]
  have e : pyReplaceF (chars "\"\x7d], \"isError\": false\x7d").length
      (chars "\"\x7d], \"isError\": false\x7d") (chars "None") (chars "null") =
      chars "\"\x7d], \"isError\": false\x7d" := by decide
  rw [e, List.cons_append]

set_option maxHeartbeats 1000000 in
theorem jGroup_jtrue (v : Chars) (hv : containsTok (chars "True") v = false) :
    pyReplace ('\x7b' :: (chars "\"content\": [\x7b\"type\": \"text\", \"text\": \"" ++
        (v ++ chars "\"\x7d], \"isError\": false\x7d"))) (chars "True") (chars "true") =
      '\x7b' :: (chars "\"content\": [\x7b\"type\": \"text\", \"text\": \"" ++
        (v ++ chars "\"\x7d], \"isError\": false\x7d")) := by
  rw [pyReplace]
  rw [show (chars "True").isEmpty = false from rfl]
  simp only [Bool.false_eq_true, if_false]
  rw [← List.cons_append]
  rw [pyReplaceF_append_ok (by decide) _ _ (by decide) _ _ (Nat.le_refl _)]
  rw [pyReplaceF_append_tok (by decide) _ (by decide) v hv _ (Nat.le_refl _)]
  have e : pyReplaceF (chars "\"\x7d], \"isError\": false\x7d").length
      (chars "\"\x7d], \"isError\": false\x7d") (chars "True") (chars "true") =
      chars "\"\x7d], \"isError\": false\x7d" := by decide
  rw [e, List.cons_append]

set_option maxHeartbeats 1000000 in
theorem jGroup_jfalse (v : Chars) (hv : containsTok (chars "False") v = false) :
    pyReplace ('\x7b' :: (chars "\"content\": [\x7b\"type\": \"text\", \"text\": \"" ++
        (v ++ chars "\"\x7d], \"isError\": false\x7d"))) (chars "False") (chars "false") =
      '\x7b' :: (chars "\"content\": [\x7b\"type\": \"text\", \"text\": \"" ++
        (v ++ chars "\"\x7d], \"isError\": false\x7d")) := by
  rw [pyReplace]
  rw [show (chars "False").isEmpty = false from rfl]
  simp only [Bool.false_eq_true, if_false]
  rw [← List.cons_append]
  rw [pyReplaceF_append_ok (by decide) _ _ (by decide) _ _ (Nat.le_refl _)]
  rw [pyReplaceF_append_tok (by decide) _ (by decide) v hv _ (Nat.le_refl _)]
  have e : pyReplaceF (chars "\"\x7d], \"isError\": false\x7d").length
      (chars "\"\x7d], \"isError\": false\x7d") (chars "False") (chars "false") =
      chars "\"\x7d], \"isError\": false\x7d" := by decide
  rw [e, List.cons_append]

set_option maxHeartbeats 1000000 in
theorem extract_renderJsonWire (v : Chars) (hsafe : v.all safeChar = true)
    (hN : containsTok (chars "None") v = false) (hT : containsTok (chars "True") v = false)
    (hF : containsTok (chars "False") v = false) :
    extract_jsonrpc (.str (renderJsonWire v)) none = wireJson v := by
  refine extract_jsonrpc_eval (jWire_isEmpty v) (jWire_root v) (jWire_reShort v hsafe)
    (jWire_reFull v hsafe) ?_
  rw [jGroup_quote v hsafe, jGroup_jnone v hN, jGroup_jtrue v hT, jGroup_jfalse v hF]
  exact jsonLoads_wire v hsafe


theorem stageRoot_textResult {s v : Chars}
    (hroot : rootMarker.isPrefixOf s = true)
    (hex : extract_jsonrpc (.str s) none = wireJson v) :
    stageRoot (.str s) = some (.str v, false, .null) := by
  simp only [stageRoot]
  rw [hroot, hex]
  rfl

theorem parse_root_text {s v : Chars}
    (hroot : rootMarker.isPrefixOf s = true)
    (hex : extract_jsonrpc (.str s) none = wireJson v) :
    parse_tool_response (.str s) = (.str v, false, .null) := by
  rw [parse_tool_response, stageRoot_textResult hroot hex]

set_option smartUnfolding false in
theorem parse_native_text (v : Chars) :
    parse_tool_response (encodeNative (mkTextResult v)) = (.str v, false, .null) := rfl

set_option smartUnfolding false in
theorem canonicalTriple_text (v : Chars) :
    canonicalTriple (mkTextResult v) = (.str v, false, .null) := rfl

theorem cleanText_split {v : Chars} (hc : cleanText v = true) :
    v.all safeChar = true ∧ containsTok (chars "None") v = false ∧
      containsTok (chars "True") v = false ∧ containsTok (chars "False") v = false := by
  simp only [cleanText, Bool.and_eq_true, Bool.not_eq_true'] at hc
  exact ⟨hc.1.1.1, hc.1.1.2, hc.1.2, hc.2⟩



/-- C2 (amended): for every root=-prefixed wire string whose extracted result
object is truthy and carries a truthy isError flag, parse_tool_response
surfaces the reply as a tool-level failure: the triple has is_error = True and
carries the result object's message field, defaulting to "Unknown error" when
the field is absent. The original claim quantified over every wire shape; it
fails for native structured replies, whose branch ignores isError (see the
counterexample). -/
theorem parse_root_isError {s : Chars}
    (hroot : rootMarker.isPrefixOf s = true)
    (htr : (extract_jsonrpc (.str s) none).truthy = true)
    (herr : ((extract_jsonrpc (.str s) none).getD (chars "isError") (.bool false)).truthy = true) :
    parse_tool_response (.str s) =
      (.null, true, (extract_jsonrpc (.str s) none).getD (chars "message")
        (.str (chars "Unknown error"))) := by
  rw [parse_tool_response]
  simp only [stageRoot, hroot, htr, herr, if_true]

set_option smartUnfolding false in
/-- Witness for C2: the concrete error reply wireBoom satisfies the
hypotheses and parses to a tool-level failure carrying "boom". -/
theorem parse_root_isError_witness :
    rootMarker.isPrefixOf wireBoom = true ∧
    (extract_jsonrpc (.str wireBoom) none).truthy = true ∧
    ((extract_jsonrpc (.str wireBoom) none).getD (chars "isError") (.bool false)).truthy = true ∧
    parse_tool_response (.str wireBoom) =
      (.null, true, (extract_jsonrpc (.str wireBoom) none).getD (chars "message")
        (.str (chars "Unknown error"))) :=
  ⟨rfl, rfl, rfl, parse_root_isError rfl rfl rfl⟩

/- C4 shape lemmas -/

theorem stageRoot_shape (v : Value) (t : ParseTriple) (h : stageRoot v = some t) :
    (∃ x, t = (x, false, .null)) ∨ (∃ m, t = (.null, true, m)) := by
  cases v with
  | str s =>
    simp only [stageRoot] at h
    by_cases hr : rootMarker.isPrefixOf s = true
    · rw [hr] at h
      simp only [if_true] at h
      split at h
      next t' heq =>
        injection h with h'
        subst h'
        split at heq
        · split at heq
          · exact Or.inr ⟨_, by injection heq with h2; exact h2.symm⟩
          · split at heq
            · split at heq
              · split at heq
                · split at heq
                  · exact Or.inl ⟨_, by injection heq with h2; exact h2.symm⟩
                  · cases heq
                · cases heq
              · cases heq
            · cases heq
        · cases heq
      next heq =>
        simp only [Option.map_eq_some'] at h
        obtain ⟨a, -, rfl⟩ := h
        exact Or.inl ⟨_, rfl⟩
    · simp only [Bool.not_eq_true] at hr
      rw [hr] at h
      simp only [Bool.false_eq_true, if_false] at h
      cases h
  | exc m => cases h
  | resp id r e => cases h
  | pyNone => cases h
  | other o => cases h

theorem stageAttr_shape (v : Value) (t : ParseTriple) (h : stageAttr v = some t) :
    ∃ x, t = (x, false, .null) := by
  cases v with
  | resp id r e =>
    match r with
    | none => cases h
    | some (.toolResult content ie msg) =>
      simp only [stageAttr] at h
      split at h
      · cases h
      · split at h
        · exact ⟨_, by injection h with h'; exact h'.symm⟩
        · split at h
          · exact ⟨_, by injection h with h'; exact h'.symm⟩
          · cases h
    | some (.dict kvs) =>
      simp only [stageAttr] at h
      split at h
      · split at h
        · split at h
          · split at h
            · exact ⟨_, by injection h with h'; exact h'.symm⟩
            · cases h
          · cases h
        · cases h
      · cases h
  | str s => cases h
  | exc m => cases h
  | pyNone => cases h
  | other o => cases h

theorem stageStr_shape (v : Value) (t : ParseTriple) (h : stageStr v = some t) :
    ∃ x, t = (x, false, .null) := by
  cases v with
  | str s =>
    simp only [stageStr, Option.map_eq_some'] at h
    obtain ⟨a, -, rfl⟩ := h
    exact ⟨_, rfl⟩
  | exc m => cases h
  | resp id r e => cases h
  | pyNone => cases h
  | other o => cases h

theorem parse_tool_response_outcomes (v : Value) :
    parse_tool_response v = (.null, false, .null) ∨
    (∃ t, parse_tool_response v = (t, false, .null)) ∨
    (∃ m, parse_tool_response v = (.null, true, m)) := by
  rw [parse_tool_response]
  cases h1 : stageRoot v with
  | some t =>
    rcases stageRoot_shape v t h1 with ⟨x, rfl⟩ | ⟨m, rfl⟩
    · exact Or.inr (Or.inl ⟨x, rfl⟩)
    · exact Or.inr (Or.inr ⟨m, rfl⟩)
  | none =>
    cases h2 : stageAttr v with
    | some t =>
      obtain ⟨x, rfl⟩ := stageAttr_shape v t h2
      exact Or.inr (Or.inl ⟨x, rfl⟩)
    | none =>
      cases h3 : stageStr v with
      | some t =>
        obtain ⟨x, rfl⟩ := stageStr_shape v t h3
        exact Or.inr (Or.inl ⟨x, rfl⟩)
      | none => exact Or.inl rfl

/- C5 -/

theorem call_tool_handle_exc (e : Chars) : call_tool_handle (.exc e) = .error e := rfl

theorem call_tool_handle_data (v : Value) (h : v.isExc = false) :
    ∃ o, call_tool_handle v = .ok o := by
  have hbody : ∀ w : Value, w.isExc = false → call_tool_handle w =
      (match stageA w with
       | some o => .ok o
       | none =>
         match tryBody w with
         | .ok (some o) => .ok o
         | .ok none => .ok (.raw w)
         | .error () => .ok (.raw w)) := by
    intro w hw
    cases w with
    | exc m => simp [Value.isExc] at hw
    | str s => rfl
    | resp id r e => rfl
    | pyNone => rfl
    | other o => rfl
  rw [hbody v h]
  cases h1 : stageA v with
  | some o => exact ⟨o, rfl⟩
  | none =>
    cases h2 : tryBody v with
    | ok oo =>
      cases oo with
      | some o => exact ⟨o, rfl⟩
      | none => exact ⟨.raw v, rfl⟩
    | error u => exact ⟨.raw v, by cases u; rfl⟩


/- C6: decimal rendering roundtrip and the id run -/

theorem decVal_append_digit (xs : Chars) (c : Char) :
    decVal (xs ++ [c]) = 10 * decVal xs + (c.toNat - 48) := by
  rw [decVal, decVal, List.foldl_append]
  rfl

theorem digit_toNat {d : Nat} (h : d < 10) : (Char.ofNat (48 + d)).toNat = 48 + d := by
  interval_cases d <;> decide

theorem natToDecAux_val : ∀ (f n : Nat), n ≤ f → decVal (natToDecAux (f + 1) n) = n := by
  intro f
  induction f with
  | zero =>
    intro n hn
    interval_cases n
    decide
  | succ f' ih =>
    intro n hn
    rw [natToDecAux]
    by_cases h10 : n < 10
    · rw [if_pos h10]
      show decVal ([] ++ [Char.ofNat (48 + n)]) = n
      rw [decVal_append_digit, digit_toNat h10]
      simp [decVal]
    · rw [if_neg h10]
      have hd : n / 10 ≤ f' := by omega
      rw [decVal_append_digit, digit_toNat (Nat.mod_lt _ (by omega)), ih _ hd]
      omega

theorem natToDec_val (n : Nat) : decVal (natToDec n) = n := by
  rw [natToDec]
  exact natToDecAux_val n n (Nat.le_refl n)

theorem requestIdRun_eq : ∀ (n st : Nat),
    requestIdRun st n = (List.range n).map (fun i => natToDec (st + i + 1)) := by
  intro n
  induction n with
  | zero => intro st; rfl
  | succ n' ih =>
    intro st
    rw [requestIdRun, getNextRequestId]
    show natToDec (st + 1) :: requestIdRun (st + 1) n' = _
    rw [ih (st + 1), List.range_succ_eq_map]
    simp only [List.map_cons, List.map_map]
    refine congrArg₂ _ (by refine congrArg _ (by omega)) ?_
    refine List.map_congr_left fun i _ => ?_
    simp only [Function.comp]
    refine congrArg _ (by omega)

/-- C6: on a fresh client (counter 0), N successive calls of
_get_next_request_id return the decimal strings of 1..N in order; the returned
strings are strictly increasing in numeric value and pairwise distinct. -/
theorem request_id_run_spec (N : Nat) :
    requestIdRun 0 N = (List.range N).map (fun i => natToDec (i + 1)) ∧
    List.Pairwise (fun a b => decVal a < decVal b) (requestIdRun 0 N) ∧
    (requestIdRun 0 N).Nodup := by
  have he : requestIdRun 0 N = (List.range N).map (fun i => natToDec (i + 1)) := by
    rw [requestIdRun_eq]
    exact List.map_congr_left fun i _ => by refine congrArg _ (by omega)
  have hp : List.Pairwise (fun a b => decVal a < decVal b) (requestIdRun 0 N) := by
    rw [he, List.pairwise_map]
    refine (List.pairwise_lt_range N).imp fun {a b} hab => ?_
    rw [natToDec_val, natToDec_val]
    omega
  refine ⟨he, hp, ?_⟩
  exact hp.imp fun {a b} hab heq => by rw [heq] at hab; omega


/- C7: list_tools update -/

set_option smartUnfolding false in
theorem list_tools_update_notExc (v : Value) (h : v.isExc = false) (p : JsonValue) :
    list_tools_update v p =
      (if rootMarker.isPrefixOf (pyStr v) then
        (if (extract_jsonrpc (.str (pyStr v)) (some (chars "tools"))).truthy then
          extract_jsonrpc (.str (pyStr v)) (some (chars "tools"))
        else .arr [])
      else .arr []) := by
  cases v with
  | exc m => simp [Value.isExc] at h
  | str s => rfl
  | resp id r e => rfl
  | pyNone => rfl
  | other o => rfl

theorem list_tools_update_indep (v : Value) (h : v.isExc = false) (p p' : JsonValue) :
    list_tools_update v p = list_tools_update v p' := by
  rw [list_tools_update_notExc v h, list_tools_update_notExc v h]

theorem list_tools_update_falsy (s : Chars) (p : JsonValue)
    (h : (extract_jsonrpc (.str s) (some (chars "tools"))).truthy = false) :
    list_tools_update (.str s) p = .arr [] := by
  rw [list_tools_update_notExc (.str s) rfl p]
  show (if rootMarker.isPrefixOf s then
    (if (extract_jsonrpc (.str s) (some (chars "tools"))).truthy then
      extract_jsonrpc (.str s) (some (chars "tools"))
    else .arr [])
  else .arr []) = _
  by_cases hr : rootMarker.isPrefixOf s = true
  · rw [if_pos hr, h]
    simp
  · rw [if_neg hr]

theorem list_tools_update_nonroot (v : Value) (hexc : v.isExc = false)
    (h : rootMarker.isPrefixOf (pyStr v) = false) (p : JsonValue) :
    list_tools_update v p = .arr [] := by
  rw [list_tools_update_notExc v hexc, h]
  simp

/- C8: get_text_value -/

/-- C8: get_text_value returns None on empty content, the text value of a
leading TextContent item, and the "text" entry (or None when absent) of a
leading plain-dict item; it is a total function, so it never raises. -/
theorem get_text_value_spec (r : ToolCallResult) :
    (r.content = [] → get_text_value r = .null) ∧
    (∀ ty tx tl, r.content = .textContent ty tx :: tl → get_text_value r = .str tx) ∧
    (∀ kvs tl, r.content = .dictItem kvs :: tl →
      get_text_value r = (pyLookup kvs (chars "text")).getD .null) := by
  refine ⟨fun h => ?_, fun ty tx tl h => ?_, fun kvs tl h => ?_⟩
  · rw [get_text_value, h]
  · rw [get_text_value, h]
  · rw [get_text_value, h]
    show (match pyLookup kvs (chars "text") with
      | some v => v
      | none => JsonValue.null) = (pyLookup kvs (chars "text")).getD .null
    cases pyLookup kvs (chars "text") <;> rfl

/-- Witness for C8 at three concrete results, one per branch. -/
theorem get_text_value_spec_witness :
    (get_text_value ⟨[], false, none⟩ = .null) ∧
    (get_text_value ⟨[.textContent (chars "label") (chars "42")], false, none⟩ =
      .str (chars "42")) ∧
    (get_text_value ⟨[.dictItem [(chars "text", .str (chars "7"))]], false, none⟩ =
      (pyLookup [(chars "text", .str (chars "7"))] (chars "text")).getD .null) :=
  ⟨(get_text_value_spec ⟨[], false, none⟩).1 rfl,
   (get_text_value_spec _).2.1 (chars "label") (chars "42") [] rfl,
   (get_text_value_spec _).2.2 [(chars "text", .str (chars "7"))] [] rfl⟩

/- C10: extract_jsonrpc null cases -/

theorem takeUpToClose_mem : ∀ (l g : Chars), takeUpToClose l = some g → '\x7d' ∈ l := by
  intro l
  induction l with
  | nil => intro g h; cases h
  | cons c cs ih =>
    intro g h
    rw [takeUpToClose] at h
    by_cases hc : c = '\x7d'
    · exact hc ▸ List.mem_cons_self _ _
    · rw [if_neg hc] at h
      cases hf : takeUpToClose cs with
      | none => rw [hf] at h; cases h
      | some g' => exact List.mem_cons_of_mem _ (ih g' hf)

theorem findResultStart_tails : ∀ (s suf : Chars), findResultStart s = some suf →
    ∃ t, t ∈ s.tails ∧ resultMarker.isPrefixOf t = true ∧ suf = t.drop 7 := by
  intro s
  induction s with
  | nil => intro suf h; cases h
  | cons c cs ih =>
    intro suf h
    rw [findResultStart] at h
    by_cases hp : resultMarker.isPrefixOf (c :: cs) = true
    · rw [if_pos hp] at h
      injection h with h'
      exact ⟨c :: cs, by rw [List.tails_cons]; exact List.mem_cons_self _ _, hp, h'.symm⟩
    · rw [if_neg (by simpa using hp)] at h
      obtain ⟨t, ht, hm, he⟩ := ih suf h
      exact ⟨t, by rw [List.tails_cons]; exact List.mem_cons_of_mem _ ht, hm, he⟩

theorem reResultShort_none {s : Chars} (h : hasBraceFragment s = false) :
    reResultShort s = none := by
  cases hf : reResultShort s with
  | none => rfl
  | some g =>
    exfalso
    rw [reResultShort] at hf
    cases hfind : findResultStart s with
    | none => rw [hfind] at hf; cases hf
    | some suf =>
      rw [hfind] at hf
      obtain ⟨t, ht, hm, he⟩ := findResultStart_tails s suf hfind
      cases hsuf : suf with
      | nil => rw [hsuf] at hf; cases hf
      | cons c rest =>
        rw [hsuf] at hf
        have hf' : (takeUpToClose rest).map (fun x => c :: x) = some g := hf
        cases htk : takeUpToClose rest with
        | none => rw [htk] at hf'; cases hf'
        | some g' =>
          have hmem : '\x7d' ∈ rest := takeUpToClose_mem rest g' htk
          have hno : ∀ (x : List Char), x <:+ s → resultMarker <+: x →
              '\x7d' ∉ List.drop 8 x := by
            simpa [hasBraceFragment, List.any_eq_true] using h
          have hdrop : t.drop 8 = rest := by
            have h7 : t.drop 7 = c :: rest := by rw [← he, hsuf]
            have h8 : t.drop 8 = (t.drop 7).drop 1 := by rw [List.drop_drop]
            rw [h8, h7, List.drop_one, List.tail_cons]
          refine hno t ((List.mem_tails _ _).mp ht) ( List.isPrefixOf_iff_prefix.mp hm) ?_
          rw [hdrop]
          exact hmem

/-- C10: extract_jsonrpc returns None (modelled as .null) without raising for
every input that is not a root=-prefixed string — None, any non-string value,
structured objects, exceptions, and plain strings (including the empty string,
whose root-marker test fails) — and also for any root=-prefixed string that
contains no closed result=\x7b...\x7d fragment. -/
theorem extract_jsonrpc_null_cases :
    (∀ s f, rootMarker.isPrefixOf s = false → extract_jsonrpc (.str s) f = .null) ∧
    (∀ f, extract_jsonrpc .pyNone f = .null) ∧
    (∀ e f, extract_jsonrpc (.exc e) f = .null) ∧
    (∀ id r er f, extract_jsonrpc (.resp id r er) f = .null) ∧
    (∀ o f, extract_jsonrpc (.other o) f = .null) ∧
    (∀ s f, rootMarker.isPrefixOf s = true → hasBraceFragment s = false →
      extract_jsonrpc (.str s) f = .null) := by
  refine ⟨fun s f h => ?_, fun f => rfl, fun e f => rfl, fun id r er f => rfl, fun o f => rfl,
    fun s f hr hb => ?_⟩
  · rw [extract_jsonrpc]
    by_cases he : s.isEmpty = true
    · rw [he]
      simp
    · simp only [Bool.not_eq_true] at he
      rw [he]
      simp only [Bool.false_eq_true, if_false]
      rw [h]
      simp
  · rw [extract_jsonrpc]
    have hne : s.isEmpty = false := by
      cases s with
      | nil => cases hr
      | cons c cs => rfl
    rw [hne]
    simp only [Bool.false_eq_true, if_false]
    rw [hr]
    simp only [Bool.not_true, Bool.false_eq_true, if_false]
    rw [reResultShort_none hb]


/- claim-level statements -/

set_option maxHeartbeats 1000000 in
set_option smartUnfolding false in
/-- C1: the wire string "root=JSONRPCResponse(id='1', result=\x7b'content':
[\x7b'type': 'text', 'text': '42'\x7d], 'isError': False\x7d)" extracts to the
canonical result object with a single text item "42" and isError false,
parse_tool_response decodes it to the triple ("42", False, None), and
get_text_value on the corresponding ToolCallResult returns "42". -/
theorem wire42_scenario :
    extract_jsonrpc (.str wire42) none = json42 ∧
    parse_tool_response (.str wire42) = (.str (chars "42"), false, .null) ∧
    get_text_value ⟨[.textContent (chars "text") (chars "42")], false, none⟩ =
      .str (chars "42") := ⟨rfl, rfl, rfl⟩

/-- C3 (amended): for every clean text value (ASCII letters, digits and
spaces, not containing the tokens None, True or False), the single-text
success ToolResult round-trips through all three wire shapes — native
structured object, root=-prefixed Python-literal string, and root=-prefixed
JSON-styled string: extract_jsonrpc recovers the canonical result object from
both string shapes, and parse_tool_response yields the same canonical triple
(text, False, None) from all three. The original claim over every ToolResult
fails, e.g. for isError = true results (see the counterexample). -/
theorem roundtrip_clean_text (v : Chars) (hc : cleanText v = true) :
    extract_jsonrpc (.str (renderPyWire v)) none = wireJson v ∧
    extract_jsonrpc (.str (renderJsonWire v)) none = wireJson v ∧
    parse_tool_response (encodeNative (mkTextResult v)) = canonicalTriple (mkTextResult v) ∧
    parse_tool_response (.str (renderPyWire v)) = canonicalTriple (mkTextResult v) ∧
    parse_tool_response (.str (renderJsonWire v)) = canonicalTriple (mkTextResult v) ∧
    canonicalTriple (mkTextResult v) = (.str v, false, .null) := by
  obtain ⟨hsafe, hN, hT, hF⟩ := cleanText_split hc
  refine ⟨extract_renderPyWire v hsafe hN hT hF, extract_renderJsonWire v hsafe hN hT hF,
    ?_, ?_, ?_, canonicalTriple_text v⟩
  · rw [parse_native_text, canonicalTriple_text]
  · rw [parse_root_text (pyWire_root v) (extract_renderPyWire v hsafe hN hT hF),
      canonicalTriple_text]
  · rw [parse_root_text (jWire_root v) (extract_renderJsonWire v hsafe hN hT hF),
      canonicalTriple_text]

/-- Witness for C3 at the clean text value "42". -/
theorem roundtrip_clean_text_witness :
    cleanText (chars "42") = true ∧
    (extract_jsonrpc (.str (renderPyWire (chars "42"))) none = wireJson (chars "42") ∧
    extract_jsonrpc (.str (renderJsonWire (chars "42"))) none = wireJson (chars "42") ∧
    parse_tool_response (encodeNative (mkTextResult (chars "42"))) =
      canonicalTriple (mkTextResult (chars "42")) ∧
    parse_tool_response (.str (renderPyWire (chars "42"))) =
      canonicalTriple (mkTextResult (chars "42")) ∧
    parse_tool_response (.str (renderJsonWire (chars "42"))) =
      canonicalTriple (mkTextResult (chars "42")) ∧
    canonicalTriple (mkTextResult (chars "42")) = (.str (chars "42"), false, .null)) :=
  ⟨by decide, roundtrip_clean_text (chars "42") (by decide)⟩

set_option smartUnfolding false in
/-- Counterexample for C3 as stated: the ToolResult with one text item "oops",
isError = true and message "boom" encodes natively to a reply that decodes to
("oops", False, None), not to its canonical triple (None, True, "boom"). -/
theorem roundtrip_error_counterexample :
    parse_tool_response (encodeNative errResult) = (.str (chars "oops"), false, .null) ∧
    canonicalTriple errResult = (.null, true, .str (chars "boom")) ∧
    parse_tool_response (encodeNative errResult) ≠ canonicalTriple errResult := by
  refine ⟨rfl, rfl, fun h => ?_⟩
  have h1 : parse_tool_response (encodeNative errResult) = (.str (chars "oops"), false, .null) :=
    rfl
  have h2 : canonicalTriple errResult = (.null, true, .str (chars "boom")) := rfl
  rw [h1, h2] at h
  have hb := congrArg (fun t : ParseTriple => t.2.1) h
  simp at hb

/-- C4: parse_tool_response is a total function (so it terminates and never
raises) and every output has one of the spec's shapes: the give-up triple
(None, False, None), a success (value, False, None), or a tool-level failure
(None, True, message); in particular unrecognized inputs — arbitrary non-reply
data, exception objects, None — all return the explicit give-up triple. -/
theorem decoder_outcome_shapes (v : Value) :
    (parse_tool_response v = (.null, false, .null) ∨
      (∃ t, parse_tool_response v = (t, false, .null)) ∨
      (∃ m, parse_tool_response v = (.null, true, m))) ∧
    (∀ s, parse_tool_response (.other s) = (.null, false, .null)) ∧
    (∀ e, parse_tool_response (.exc e) = (.null, false, .null)) ∧
    (parse_tool_response .pyNone = (.null, false, .null)) :=
  ⟨parse_tool_response_outcomes v, fun _ => rfl, fun _ => rfl, rfl⟩

/-- C5: in call_tool, a received exception object is re-raised to the caller
immediately, before any decoding stage runs; every non-exception value is
handled by the decoding pipeline and produces a normal return, never an
error. -/
theorem call_tool_reraises_exceptions :
    (∀ e, call_tool_handle (.exc e) = .error e) ∧
    (∀ v : Value, v.isExc = false → ∃ o, call_tool_handle v = .ok o) :=
  ⟨call_tool_handle_exc, call_tool_handle_data⟩

/-- Witness for C5: one exception input and one data input. -/
theorem call_tool_reraises_exceptions_witness :
    call_tool_handle (.exc (chars "boom")) = .error (chars "boom") ∧
    (Value.str (chars "junk")).isExc = false ∧
    (∃ o, call_tool_handle (.str (chars "junk")) = .ok o) :=
  ⟨call_tool_reraises_exceptions.1 (chars "boom"), rfl,
    call_tool_reraises_exceptions.2 (.str (chars "junk")) rfl⟩

/-- C7 (amended): list_tools replaces available_tools wholesale — the new
value never depends on the prior contents; a reply from which nothing truthy
is extracted under the "tools" field leaves available_tools empty, as does any
non-exception reply whose string form lacks the root= marker, and the concrete
empty-tools-array reply. The original claim also asserted that a reply from
which no tools can be recovered always leaves available_tools empty; that part
fails, because extract_jsonrpc called with the "tools" field returns the whole
result object when the key is absent, and list_tools stores that object (see
the counterexample). -/
theorem list_tools_wholesale :
    (∀ (v : Value) (p p' : JsonValue), v.isExc = false →
      list_tools_update v p = list_tools_update v p') ∧
    (∀ (s : Chars) (p : JsonValue),
      (extract_jsonrpc (.str s) (some (chars "tools"))).truthy = false →
      list_tools_update (.str s) p = .arr []) ∧
    (∀ (v : Value) (p : JsonValue), v.isExc = false →
      rootMarker.isPrefixOf (pyStr v) = false → list_tools_update v p = .arr []) ∧
    (∀ p : JsonValue, list_tools_update (.str wireEmptyTools) p = .arr []) :=
  ⟨fun v p p' h => list_tools_update_indep v h p p',
   fun s p h => list_tools_update_falsy s p h,
   fun v p h1 h2 => list_tools_update_nonroot v h1 h2 p,
   fun _ => rfl⟩

set_option maxHeartbeats 400000 in
set_option smartUnfolding false in
/-- Witness for C7 at concrete replies: the empty-tools reply, a falsy
extraction, and a non-root= value. -/
theorem list_tools_wholesale_witness :
    (Value.str wireEmptyTools).isExc = false ∧
    list_tools_update (.str wireEmptyTools) (.arr [.str (chars "old")]) =
      list_tools_update (.str wireEmptyTools) (.arr []) ∧
    (extract_jsonrpc (.str (chars "root=nope")) (some (chars "tools"))).truthy = false ∧
    list_tools_update (.str (chars "root=nope")) (.arr [.str (chars "old")]) = .arr [] ∧
    rootMarker.isPrefixOf (pyStr (Value.other (chars "junk"))) = false ∧
    list_tools_update (.other (chars "junk")) (.arr [.str (chars "old")]) = .arr [] :=
  ⟨rfl, list_tools_wholesale.1 (.str wireEmptyTools) _ _ rfl,
   rfl, list_tools_wholesale.2.1 (chars "root=nope") _ rfl,
   rfl, list_tools_wholesale.2.2.1 (.other (chars "junk")) _ rfl rfl⟩

set_option maxHeartbeats 400000 in
set_option smartUnfolding false in
/-- Counterexample for C7 as stated: the reply "root=JSONRPCResponse(id='2',
result=\x7b'foo': 1\x7d)" yields no tools, yet list_tools stores the whole
result dict \x7b'foo': 1\x7d in available_tools instead of the empty
sequence. -/
theorem list_tools_counterexample :
    list_tools_update (.str wireFoo) (.arr [.str (chars "old")]) =
      .obj [(chars "foo", .num 1)] ∧
    (JsonValue.obj [(chars "foo", .num 1)] ≠ .arr []) :=
  ⟨rfl, fun h => JsonValue.noConfusion h⟩

set_option smartUnfolding false in
/-- Counterexample for C2 as stated: natErrResp is a native structured reply
whose result attribute carries isError = true and message "boom", yet
parse_tool_response returns ("oops", False, None) — a success triple, not the
tool-level failure (None, True, "boom"). -/
theorem isError_dropped_for_native_objects :
    parse_tool_response natErrResp = (.str (chars "oops"), false, .null) ∧
    parse_tool_response natErrResp ≠ (.null, true, .str (chars "boom")) := by
  refine ⟨rfl, fun h => ?_⟩
  have h1 : parse_tool_response natErrResp = (.str (chars "oops"), false, .null) := rfl
  rw [h1] at h
  have hb := congrArg (fun t : ParseTriple => t.2.1) h
  simp at hb

set_option maxHeartbeats 1000000 in
set_option smartUnfolding false in
/-- C9: the wire string "...'text': 'hello world'..." has no parseable JSON
structure, and the decoder's last-resort regex stage recovers the labeled text
field: parse_tool_response returns the triple ("hello world", False, None). -/
theorem regex_fallback_hello_world :
    parse_tool_response (.str (chars "...'text': 'hello world'...")) =
      (.str (chars "hello world"), false, .null) := rfl

/-- Witness for C10: a plain string without the root= marker, and a
root=-prefixed string with no closed result fragment. -/
theorem extract_jsonrpc_null_witness :
    rootMarker.isPrefixOf (chars "plain text") = false ∧
    extract_jsonrpc (.str (chars "plain text")) none = .null ∧
    rootMarker.isPrefixOf (chars "root=no fragment here") = true ∧
    hasBraceFragment (chars "root=no fragment here") = false ∧
    extract_jsonrpc (.str (chars "root=no fragment here")) (some (chars "tools")) = .null :=
  ⟨by decide, extract_jsonrpc_null_cases.1 (chars "plain text") none (by decide),
   by decide, by decide,
   extract_jsonrpc_null_cases.2.2.2.2.2 (chars "root=no fragment here") (some (chars "tools"))
     (by decide) (by decide)⟩

end McpClient
